import Mathlib

/-!
Verification of the tool-orchestration core of the repository
(`backend/services/tool_configuration_service.py` and its collaborators),
shallowly embedded in Lean 4.

Python values that flow through the service (tool input schemas, remote
JSON-Schema fragments, parameter defaults) are modelled by `PyObj`, a
universe of `None`, booleans, integers, strings, lists and string-keyed
dicts — the shapes that actually occur in the repository's tool metadata.
`json.dumps(·, ensure_ascii=False)` and Python's `str()` rendering of such
values are modelled character-exactly, and JSON validity is decided by an
executable JSON parser `jsonParse` (integer numerics, as produced by the
serializers modelled here; it accepts the standard string escapes).
-/

/-- Model of the Python values handled by the tool-configuration service:
`None`, `bool`, `int`, `str`, `list`, and string-keyed `dict` (insertion
ordered, as Python dicts are). -/
inductive PyObj where
  | pynone : PyObj
  | pybool : Bool → PyObj
  | pyint : Int → PyObj
  | pystr : String → PyObj
  | pylist : List PyObj → PyObj
  | pydict : List (String × PyObj) → PyObj

/-- Python dict lookup `d[k]` / `k in d` on the assoc-list model: the first
binding of the key wins (Python dicts never hold duplicate keys). -/
def lookupKey (kvs : List (String × PyObj)) (k : String) : Option PyObj :=
  match kvs with
  | [] => none
  | (k', v) :: rest => if k' = k then some v else lookupKey rest k

/-- Membership test `k in d` for the dict model. -/
def hasKey (kvs : List (String × PyObj)) (k : String) : Bool :=
  (lookupKey kvs k).isSome

/-- Python dict assignment `d[k] = v`: overwrites in place if the key is
present, otherwise appends the new binding at the end (insertion order). -/
def setKey (kvs : List (String × PyObj)) (k : String) (v : PyObj) :
    List (String × PyObj) :=
  match kvs with
  | [] => [(k, v)]
  | (k', v') :: rest =>
    if k' = k then (k', v) :: rest else (k', v') :: setKey rest k v

/-- The decimal digit characters, as emitted by Python's integer
formatting. -/
def digitChar (n : Nat) : Char :=
  match n with
  | 0 => '0' | 1 => '1' | 2 => '2' | 3 => '3' | 4 => '4'
  | 5 => '5' | 6 => '6' | 7 => '7' | 8 => '8' | _ => '9'

/-- Lower-case hex digits, as emitted by `json.dumps` for `\u00XX`
escapes. -/
def hexDigitChar (n : Nat) : Char :=
  match n with
  | 0 => '0' | 1 => '1' | 2 => '2' | 3 => '3' | 4 => '4'
  | 5 => '5' | 6 => '6' | 7 => '7' | 8 => '8' | 9 => '9'
  | 10 => 'a' | 11 => 'b' | 12 => 'c' | 13 => 'd' | 14 => 'e' | _ => 'f'

/-- Decimal rendering of a natural number, most significant digit first. -/
def natChars (n : Nat) : List Char :=
  if _h : n < 10 then [digitChar n]
  else natChars (n / 10) ++ [digitChar (n % 10)]
termination_by n
decreasing_by
  exact Nat.div_lt_self (by omega) (by omega)

/-- Python's rendering of an integer (used both by `json.dumps` and by
`str()`). -/
def intChars (n : Int) : List Char :=
  if n < 0 then '-' :: natChars n.natAbs else natChars n.toNat

/-- One character of a JSON string body under `json.dumps(...,
ensure_ascii=False)`: `"` and `\` and the named control characters get
two-character escapes, the remaining control characters get `\u00XX`, and
everything else passes through unescaped. -/
def escChar (c : Char) : List Char :=
  if c = '"' then ['\\', '"']
  else if c = '\\' then ['\\', '\\']
  else if c = '\n' then ['\\', 'n']
  else if c = '\t' then ['\\', 't']
  else if c = '\r' then ['\\', 'r']
  else if c.toNat = 8 then ['\\', 'b']
  else if c.toNat = 12 then ['\\', 'f']
  else if c.toNat < 32 then
    ['\\', 'u', '0', '0', hexDigitChar (c.toNat / 16), hexDigitChar (c.toNat % 16)]
  else [c]

/-- JSON-escape a whole string body. -/
def escapeChars : List Char → List Char
  | [] => []
  | c :: cs => escChar c ++ escapeChars cs

mutual

/-- Model of `json.dumps(x, ensure_ascii=False)` with Python's default separators
`", "` and `": "`, over the `PyObj` universe, as a character list. -/
def dumpsChars : PyObj → List Char
  | .pynone => ['n', 'u', 'l', 'l']
  | .pybool true => ['t', 'r', 'u', 'e']
  | .pybool false => ['f', 'a', 'l', 's', 'e']
  | .pyint n => intChars n
  | .pystr s => '"' :: escapeChars s.toList ++ ['"']
  | .pylist xs => '[' :: dumpsList xs ++ [']']
  | .pydict kvs => '{' :: dumpsMembers kvs ++ ['}']

/-- Array elements, `", "`-separated. -/
def dumpsList : List PyObj → List Char
  | [] => []
  | [x] => dumpsChars x
  | x :: y :: rest => dumpsChars x ++ [',', ' '] ++ dumpsList (y :: rest)

/-- Object members, `"key": value` with `", "` separators. -/
def dumpsMembers : List (String × PyObj) → List Char
  | [] => []
  | [(k, v)] => '"' :: escapeChars k.toList ++ ['"', ':', ' '] ++ dumpsChars v
  | (k, v) :: m :: rest =>
    '"' :: escapeChars k.toList ++ ['"', ':', ' '] ++ dumpsChars v
      ++ [',', ' '] ++ dumpsMembers (m :: rest)

end

/-- Model of `json.dumps(x, ensure_ascii=False)`, as a `String`. -/
def json_dumps (x : PyObj) : String := String.mk (dumpsChars x)

/-- Python `repr` of one character inside a quoted string literal with
quote character `q`: the backslash and the active quote are escaped, the
named control characters use their short escapes, other control characters
use `\xHH`.  (The strings the service renders never contain the passive
quote, so the model covers the repr fragment the repository exercises.) -/
def reprEscChar (q c : Char) : List Char :=
  if c = '\\' then ['\\', '\\']
  else if c = q then ['\\', q]
  else if c = '\n' then ['\\', 'n']
  else if c = '\t' then ['\\', 't']
  else if c = '\r' then ['\\', 'r']
  else if c.toNat < 32 then
    ['\\', 'x', hexDigitChar (c.toNat / 16), hexDigitChar (c.toNat % 16)]
  else [c]

/-- repr-escape a whole string body. -/
def reprEscapeChars (q : Char) : List Char → List Char
  | [] => []
  | c :: cs => reprEscChar q c ++ reprEscapeChars q cs

/-- Python `repr` of a `str`: single-quoted, unless the string contains a
single quote and no double quote, in which case double quotes are used. -/
def reprStrChars (s : String) : List Char :=
  let sq : Char := Char.ofNat 39
  let q : Char := if s.toList.contains sq ∧ ¬ s.toList.contains '"' then '"' else sq
  q :: reprEscapeChars q s.toList ++ [q]

mutual

/-- Python `str()`/`repr()` rendering of a `PyObj` — what
`str(input_schema["properties"])` produces in
`get_tool_from_remote_mcp_server`. -/
def pyReprChars : PyObj → List Char
  | .pynone => ['N', 'o', 'n', 'e']
  | .pybool true => ['T', 'r', 'u', 'e']
  | .pybool false => ['F', 'a', 'l', 's', 'e']
  | .pyint n => intChars n
  | .pystr s => reprStrChars s
  | .pylist xs => '[' :: pyReprList xs ++ [']']
  | .pydict kvs => '{' :: pyReprMembers kvs ++ ['}']

/-- List elements of a Python `repr`, `", "`-separated. -/
def pyReprList : List PyObj → List Char
  | [] => []
  | [x] => pyReprChars x
  | x :: y :: rest => pyReprChars x ++ [',', ' '] ++ pyReprList (y :: rest)

/-- Dict members of a Python `repr`: `repr(key): repr(value)` with `", "`
separators. -/
def pyReprMembers : List (String × PyObj) → List Char
  | [] => []
  | [(k, v)] => reprStrChars k ++ [':', ' '] ++ pyReprChars v
  | (k, v) :: m :: rest =>
    reprStrChars k ++ [':', ' '] ++ pyReprChars v ++ [',', ' ']
      ++ pyReprMembers (m :: rest)

end

/-- Model of `str(x)` for the dict values the remote adapter renders. -/
def py_str (x : PyObj) : String := String.mk (pyReprChars x)

/-! ## An executable JSON parser, to make "is valid JSON" decidable. -/

/-- JSON insignificant whitespace. -/
def isWs (c : Char) : Bool :=
  c = ' ' ∨ c = '\n' ∨ c = '\t' ∨ c = '\r'

/-- Skip insignificant whitespace. -/
def skipWs : List Char → List Char
  | [] => []
  | c :: cs => if isWs c then skipWs cs else c :: cs

/-- ASCII decimal digit test. -/
def isDigitCh (c : Char) : Bool :=
  48 ≤ c.toNat ∧ c.toNat ≤ 57

/-- Greedily read a run of decimal digits. -/
def readDigits : List Char → List Char × List Char
  | [] => ([], [])
  | c :: cs =>
    if isDigitCh c then
      let (ds, r) := readDigits cs
      (c :: ds, r)
    else ([], c :: cs)

/-- Value of a digit run, most significant first. -/
def digitsToNat (acc : Nat) : List Char → Nat
  | [] => acc
  | c :: cs => digitsToNat (acc * 10 + (c.toNat - 48)) cs

/-- Hex digit value, both cases. -/
def hexVal (c : Char) : Option Nat :=
  if 48 ≤ c.toNat ∧ c.toNat ≤ 57 then some (c.toNat - 48)
  else if 97 ≤ c.toNat ∧ c.toNat ≤ 102 then some (c.toNat - 87)
  else if 65 ≤ c.toNat ∧ c.toNat ≤ 70 then some (c.toNat - 55)
  else none

/-- The single two-character JSON string escapes. -/
def unescapeChar (e : Char) : Option Char :=
  if e = '"' then some '"'
  else if e = '\\' then some '\\'
  else if e = '/' then some '/'
  else if e = 'n' then some '\n'
  else if e = 't' then some '\t'
  else if e = 'r' then some '\r'
  else if e = 'b' then some (Char.ofNat 8)
  else if e = 'f' then some (Char.ofNat 12)
  else none

/-- Parse the body of a JSON string after the opening quote; returns the
decoded characters and the input after the closing quote. -/
def parseStringRest : List Char → Option (List Char × List Char)
  | [] => none
  | c :: r =>
    if c = '"' then some ([], r)
    else if c = '\\' then
      match r with
      | [] => none
      | e :: r1 =>
        if e = 'u' then
          match r1 with
          | a :: b :: c2 :: d :: r2 =>
            match hexVal a, hexVal b, hexVal c2, hexVal d, parseStringRest r2 with
            | some x, some y, some z, some w, some (s, r3) =>
              some (Char.ofNat (((x * 16 + y) * 16 + z) * 16 + w) :: s, r3)
            | _, _, _, _, _ => none
          | _ => none
        else
          match unescapeChar e, parseStringRest r1 with
          | some u, some (s, r3) => some (u :: s, r3)
          | _, _ => none
    else if c.toNat < 32 then none
    else
      match parseStringRest r with
      | some (s, r3) => some (c :: s, r3)
      | none => none

mutual

/-- Parse one JSON value (fuel bounds the nesting/sequencing depth of
recursive calls; any fuel at least `costVal` of the value suffices). -/
def parseVal : Nat → List Char → Option (PyObj × List Char)
  | 0, _ => none
  | Nat.succ f, cs =>
    match skipWs cs with
    | [] => none
    | c :: r =>
      if isDigitCh c then
        let (ds, r') := readDigits (c :: r)
        some (.pyint (digitsToNat 0 ds), r')
      else if c = '-' then
        match readDigits r with
        | ([], _) => none
        | (ds, r') => some (.pyint (-(digitsToNat 0 ds : Int)), r')
      else if c = '"' then
        match parseStringRest r with
        | some (s, r') => some (.pystr (String.mk s), r')
        | none => none
      else if c = '[' then
        match skipWs r with
        | [] => none
        | c2 :: r2 =>
          if c2 = ']' then some (.pylist [], r2)
          else
            match parseElems f (c2 :: r2) with
            | some (xs, r') => some (.pylist xs, r')
            | none => none
      else if c = '{' then
        match skipWs r with
        | [] => none
        | c2 :: r2 =>
          if c2 = '}' then some (.pydict [], r2)
          else
            match parseMembers f (c2 :: r2) with
            | some (ms, r') => some (.pydict ms, r')
            | none => none
      else if c = 'n' then
        match r with
        | 'u' :: 'l' :: 'l' :: r' => some (.pynone, r')
        | _ => none
      else if c = 't' then
        match r with
        | 'r' :: 'u' :: 'e' :: r' => some (.pybool true, r')
        | _ => none
      else if c = 'f' then
        match r with
        | 'a' :: 'l' :: 's' :: 'e' :: r' => some (.pybool false, r')
        | _ => none
      else none

/-- Parse a non-empty `", "`-separated element list up to and including the
closing `]`. -/
def parseElems : Nat → List Char → Option (List PyObj × List Char)
  | 0, _ => none
  | Nat.succ f, cs =>
    match parseVal f cs with
    | none => none
    | some (v, r) =>
      match skipWs r with
      | [] => none
      | c :: r1 =>
        if c = ',' then
          match parseElems f r1 with
          | some (vs, r2) => some (v :: vs, r2)
          | none => none
        else if c = ']' then some ([v], r1)
        else none

/-- Parse a non-empty member list up to and including the closing `}`. -/
def parseMembers : Nat → List Char → Option (List (String × PyObj) × List Char)
  | 0, _ => none
  | Nat.succ f, cs =>
    match skipWs cs with
    | [] => none
    | c :: r =>
      if c = '"' then
        match parseStringRest r with
        | none => none
        | some (k, r1) =>
          match skipWs r1 with
          | [] => none
          | c2 :: r2 =>
            if c2 = ':' then
              match parseVal f r2 with
              | none => none
              | some (v, r3) =>
                match skipWs r3 with
                | [] => none
                | c3 :: r4 =>
                  if c3 = ',' then
                    match parseMembers f r4 with
                    | some (ms, r5) => some ((String.mk k, v) :: ms, r5)
                    | none => none
                  else if c3 = '}' then some ([(String.mk k, v)], r4)
                  else none
            else none
      else none

end

/-- Parse a complete JSON text: one value, possibly surrounded by
whitespace, consuming the entire input.  `s.length + 1` fuel always
suffices for any value a text of that length can encode. -/
def jsonParse (s : String) : Option PyObj :=
  match parseVal (s.length + 1) s.toList with
  | some (j, r) => if (skipWs r).isEmpty then some j else none
  | none => none

/-- JSON validity, as decided by the executable parser. -/
def IsValidJson (s : String) : Prop :=
  (jsonParse s).isSome = true

/-! ## Round-trip: the parser accepts everything `json_dumps` emits. -/

theorem isDigit_digitChar (n : Nat) : isDigitCh (digitChar n) = true := by
  unfold digitChar; split <;> decide

theorem toNat_digitChar (n : Nat) (h : n < 10) : (digitChar n).toNat - 48 = n := by
  interval_cases n <;> decide

theorem hexVal_hexDigitChar (n : Nat) (h : n < 16) :
    hexVal (hexDigitChar n) = some n := by
  interval_cases n <;> decide

theorem natChars_ne_nil (m : Nat) : natChars m ≠ [] := by
  rw [natChars]
  split
  · simp
  · simp

theorem natChars_all_digits (m : Nat) :
    ∀ c ∈ natChars m, isDigitCh c = true := by
  induction m using Nat.strong_induction_on with
  | _ m ih =>
    rw [natChars]
    split
    · intro c hc
      simp only [List.mem_singleton] at hc
      subst hc
      exact isDigit_digitChar m
    · intro c hc
      rcases List.mem_append.mp hc with h1 | h1
      · exact ih (m / 10) (Nat.div_lt_self (by omega) (by omega)) c h1
      · simp only [List.mem_singleton] at h1
        subst h1
        exact isDigit_digitChar (m % 10)

theorem natChars_head (m : Nat) :
    ∃ c t, natChars m = c :: t ∧ isDigitCh c = true := by
  rcases hn : natChars m with _ | ⟨c, t⟩
  · exact absurd hn (natChars_ne_nil m)
  · exact ⟨c, t, rfl, natChars_all_digits m c (by rw [hn]; simp)⟩

theorem digitsToNat_append (acc : Nat) (ds es : List Char) :
    digitsToNat acc (ds ++ es) = digitsToNat (digitsToNat acc ds) es := by
  induction ds generalizing acc with
  | nil => rfl
  | cons c cs ih => exact ih (acc * 10 + (c.toNat - 48))

theorem digitsToNat_natChars (m : Nat) :
    ∀ acc, digitsToNat acc (natChars m) = acc * 10 ^ (natChars m).length + m := by
  induction m using Nat.strong_induction_on with
  | _ m ih =>
    intro acc
    rw [natChars]
    split
    · next h =>
      show acc * 10 + ((digitChar m).toNat - 48) = acc * 10 ^ 1 + m
      rw [toNat_digitChar m h, pow_one]
    · next h =>
      have hd : m / 10 < m := Nat.div_lt_self (by omega) (by omega)
      rw [digitsToNat_append, ih (m / 10) hd acc, List.length_append,
        List.length_singleton]
      show (acc * 10 ^ (natChars (m / 10)).length + m / 10) * 10
          + ((digitChar (m % 10)).toNat - 48)
          = acc * 10 ^ ((natChars (m / 10)).length + 1) + m
      rw [toNat_digitChar (m % 10) (Nat.mod_lt m (by omega)), pow_succ]
      have hm : m / 10 * 10 + m % 10 = m := by omega
      generalize 10 ^ (natChars (m / 10)).length = p
      calc (acc * p + m / 10) * 10 + m % 10
          = acc * (p * 10) + (m / 10 * 10 + m % 10) := by ring
        _ = acc * (p * 10) + m := by rw [hm]

theorem digitsToNat_natChars_zero (m : Nat) : digitsToNat 0 (natChars m) = m := by
  rw [digitsToNat_natChars m 0]; simp

/-- The character after a digit run, as far as the grammar of
`json_dumps` output is concerned: end of input or a non-digit. -/
def followOk : List Char → Bool
  | [] => true
  | c :: _ => !isDigitCh c

theorem readDigits_append (ds rest : List Char)
    (hds : ∀ c ∈ ds, isDigitCh c = true) (hr : followOk rest = true) :
    readDigits (ds ++ rest) = (ds, rest) := by
  induction ds with
  | nil =>
    simp only [List.nil_append]
    cases rest with
    | nil => rfl
    | cons c cs =>
      simp only [followOk, Bool.not_eq_true'] at hr
      simp [readDigits, hr]
  | cons c cs ih =>
    have hc : isDigitCh c = true := hds c (by simp)
    have ih' := ih (fun x hx => hds x (by simp [hx]))
    simp only [List.cons_append, readDigits, hc, if_true]
    rw [show cs.append rest = cs ++ rest from rfl, ih']

theorem skipWs_cons_of_not_ws {c : Char} (cs : List Char) (h : isWs c = false) :
    skipWs (c :: cs) = c :: cs := by
  simp [skipWs, h]

theorem skipWs_cons_ws {c : Char} (cs : List Char) (h : isWs c = true) :
    skipWs (c :: cs) = skipWs cs := by
  simp [skipWs, h]

theorem psr_quote (r : List Char) : parseStringRest ('"' :: r) = some ([], r) := by
  rw [parseStringRest.eq_def]
  simp

theorem psr_plain {c : Char} (r : List Char) (h1 : c ≠ '"') (h2 : c ≠ '\\')
    (h3 : ¬ c.toNat < 32) :
    parseStringRest (c :: r) = (parseStringRest r).map (fun p => (c :: p.1, p.2)) := by
  rw [parseStringRest.eq_def]
  simp only [h1, h2, h3, if_false, if_neg]
  cases parseStringRest r with
  | none => rfl
  | some p => cases p; rfl

theorem psr_esc (e u : Char) (r : List Char) (hne : e ≠ 'u')
    (he : unescapeChar e = some u) :
    parseStringRest ('\\' :: e :: r) = (parseStringRest r).map (fun p => (u :: p.1, p.2)) := by
  rw [parseStringRest.eq_def]
  simp only [hne, if_false, if_neg, he]
  norm_num
  cases parseStringRest r with
  | none => rfl
  | some p => cases p; rfl

theorem psr_u00 (t : Nat) (ht : t < 32) (r : List Char) :
    parseStringRest
        ('\\' :: 'u' :: '0' :: '0' :: hexDigitChar (t / 16) :: hexDigitChar (t % 16) :: r) =
      (parseStringRest r).map (fun p => (Char.ofNat t :: p.1, p.2)) := by
  rw [parseStringRest.eq_def]
  have h0 : hexVal '0' = some 0 := by decide
  have h1 : hexVal (hexDigitChar (t / 16)) = some (t / 16) :=
    hexVal_hexDigitChar (t / 16) (by omega)
  have h2 : hexVal (hexDigitChar (t % 16)) = some (t % 16) :=
    hexVal_hexDigitChar (t % 16) (by omega)
  have hne : ('\\' : Char) ≠ '"' := by decide
  simp only [if_neg hne, h0, h1, h2]
  cases parseStringRest r with
  | none => rfl
  | some p =>
    cases p
    simp only [Option.map_some']
    have harith : ((0 * 16 + 0) * 16 + t / 16) * 16 + t % 16 = t := by omega
    rw [harith]
    simp

theorem parseStringRest_escape (s : List Char) :
    ∀ rest, parseStringRest (escapeChars s ++ '"' :: rest) = some (s, rest) := by
  induction s with
  | nil => intro rest; exact psr_quote rest
  | cons c cs ih =>
    intro rest
    rw [show escapeChars (c :: cs) = escChar c ++ escapeChars cs from rfl]
    by_cases h1 : c = '"'
    · subst h1
      show parseStringRest ('\\' :: '"' :: (escapeChars cs ++ '"' :: rest)) = _
      rw [psr_esc '"' '"' _ (by decide) (by decide), ih rest]
      rfl
    · by_cases h2 : c = '\\'
      · subst h2
        show parseStringRest ('\\' :: '\\' :: (escapeChars cs ++ '"' :: rest)) = _
        rw [psr_esc '\\' '\\' _ (by decide) (by decide), ih rest]
        rfl
      · by_cases h3 : c = '\n'
        · subst h3
          show parseStringRest ('\\' :: 'n' :: (escapeChars cs ++ '"' :: rest)) = _
          rw [psr_esc 'n' '\n' _ (by decide) (by decide), ih rest]
          rfl
        · by_cases h4 : c = '\t'
          · subst h4
            show parseStringRest ('\\' :: 't' :: (escapeChars cs ++ '"' :: rest)) = _
            rw [psr_esc 't' '\t' _ (by decide) (by decide), ih rest]
            rfl
          · by_cases h5 : c = '\r'
            · subst h5
              show parseStringRest ('\\' :: 'r' :: (escapeChars cs ++ '"' :: rest)) = _
              rw [psr_esc 'r' '\r' _ (by decide) (by decide), ih rest]
              rfl
            · by_cases h6 : c.toNat = 8
              · have hc : escChar c = ['\\', 'b'] := by
                  simp [escChar, h1, h2, h3, h4, h5, h6]
                rw [hc]
                show parseStringRest ('\\' :: 'b' :: (escapeChars cs ++ '"' :: rest)) = _
                rw [psr_esc 'b' (Char.ofNat 8) _ (by decide) (by decide), ih rest]
                have : Char.ofNat 8 = c := by
                  rw [← h6, Char.ofNat_toNat]
                rw [this]
                rfl
              · by_cases h7 : c.toNat = 12
                · have hc : escChar c = ['\\', 'f'] := by
                    simp [escChar, h1, h2, h3, h4, h5, h6, h7]
                  rw [hc]
                  show parseStringRest ('\\' :: 'f' :: (escapeChars cs ++ '"' :: rest)) = _
                  rw [psr_esc 'f' (Char.ofNat 12) _ (by decide) (by decide), ih rest]
                  have : Char.ofNat 12 = c := by
                    rw [← h7, Char.ofNat_toNat]
                  rw [this]
                  rfl
                · by_cases h8 : c.toNat < 32
                  · have hc : escChar c =
                        ['\\', 'u', '0', '0', hexDigitChar (c.toNat / 16),
                          hexDigitChar (c.toNat % 16)] := by
                      simp [escChar, h1, h2, h3, h4, h5, h6, h7, h8]
                    rw [hc]
                    show parseStringRest
                        ('\\' :: 'u' :: '0' :: '0' :: hexDigitChar (c.toNat / 16)
                          :: hexDigitChar (c.toNat % 16)
                          :: (escapeChars cs ++ '"' :: rest)) = _
                    rw [psr_u00 c.toNat h8 _, ih rest, Char.ofNat_toNat]
                    rfl
                  · have hc : escChar c = [c] := by
                      simp [escChar, h1, h2, h3, h4, h5, h6, h7, h8]
                    rw [hc]
                    show parseStringRest (c :: (escapeChars cs ++ '"' :: rest)) = _
                    rw [psr_plain _ h1 h2 h8, ih rest]
                    rfl

/-- Unfolding of `parseVal` at positive fuel. -/
theorem parseVal_succ (f : Nat) (cs : List Char) :
    parseVal (f + 1) cs =
      match skipWs cs with
      | [] => none
      | c :: r =>
        if isDigitCh c then
          match readDigits (c :: r) with
          | (ds, r') => some (.pyint (digitsToNat 0 ds), r')
        else if c = '-' then
          match readDigits r with
          | ([], _) => none
          | (ds, r') => some (.pyint (-(digitsToNat 0 ds : Int)), r')
        else if c = '"' then
          match parseStringRest r with
          | some (s, r') => some (.pystr (String.mk s), r')
          | none => none
        else if c = '[' then
          match skipWs r with
          | [] => none
          | c2 :: r2 =>
            if c2 = ']' then some (.pylist [], r2)
            else
              match parseElems f (c2 :: r2) with
              | some (xs, r') => some (.pylist xs, r')
              | none => none
        else if c = '{' then
          match skipWs r with
          | [] => none
          | c2 :: r2 =>
            if c2 = '}' then some (.pydict [], r2)
            else
              match parseMembers f (c2 :: r2) with
              | some (ms, r') => some (.pydict ms, r')
              | none => none
        else if c = 'n' then
          match r with
          | 'u' :: 'l' :: 'l' :: r' => some (.pynone, r')
          | _ => none
        else if c = 't' then
          match r with
          | 'r' :: 'u' :: 'e' :: r' => some (.pybool true, r')
          | _ => none
        else if c = 'f' then
          match r with
          | 'a' :: 'l' :: 's' :: 'e' :: r' => some (.pybool false, r')
          | _ => none
        else none := by
  rw [parseVal.eq_def]

/-- Unfolding of `parseElems` at positive fuel. -/
theorem parseElems_succ (f : Nat) (cs : List Char) :
    parseElems (f + 1) cs =
      match parseVal f cs with
      | none => none
      | some (v, r) =>
        match skipWs r with
        | [] => none
        | c :: r1 =>
          if c = ',' then
            match parseElems f r1 with
            | some (vs, r2) => some (v :: vs, r2)
            | none => none
          else if c = ']' then some ([v], r1)
          else none := by
  rw [parseElems.eq_def]

/-- Unfolding of `parseMembers` at positive fuel. -/
theorem parseMembers_succ (f : Nat) (cs : List Char) :
    parseMembers (f + 1) cs =
      match skipWs cs with
      | [] => none
      | c :: r =>
        if c = '"' then
          match parseStringRest r with
          | none => none
          | some (k, r1) =>
            match skipWs r1 with
            | [] => none
            | c2 :: r2 =>
              if c2 = ':' then
                match parseVal f r2 with
                | none => none
                | some (v, r3) =>
                  match skipWs r3 with
                  | [] => none
                  | c3 :: r4 =>
                    if c3 = ',' then
                      match parseMembers f r4 with
                      | some (ms, r5) => some ((String.mk k, v) :: ms, r5)
                      | none => none
                    else if c3 = '}' then some ([(String.mk k, v)], r4)
                    else none
              else none
        else none := by
  rw [parseMembers.eq_def]

mutual

/-- Fuel bound for `parseVal`: an upper bound on the recursion depth the
parser needs on this value's serialization. -/
def costVal : PyObj → Nat
  | .pylist xs => costElems xs + 1
  | .pydict kvs => costMembers kvs + 1
  | _ => 1

/-- Fuel bound for `parseElems`. -/
def costElems : List PyObj → Nat
  | [] => 1
  | v :: vs => max (costVal v) (costElems vs) + 1

/-- Fuel bound for `parseMembers`. -/
def costMembers : List (String × PyObj) → Nat
  | [] => 1
  | (_, v) :: ms => max (costVal v) (costMembers ms) + 1

end

theorem costVal_pos (j : PyObj) : 1 ≤ costVal j := by
  cases j <;> simp [costVal]

theorem costElems_pos (xs : List PyObj) : 1 ≤ costElems xs := by
  cases xs <;> simp [costElems]

theorem costMembers_pos (ms : List (String × PyObj)) : 1 ≤ costMembers ms := by
  cases ms with
  | nil => simp [costMembers]
  | cons m rest => cases m; simp [costMembers]

theorem isDigit_not_ws {c : Char} (h : isDigitCh c = true) : isWs c = false := by
  cases hw : isWs c
  · rfl
  · exfalso
    simp only [isWs, decide_eq_true_eq] at hw
    rcases hw with h1 | h1 | h1 | h1 <;> (subst h1; exact absurd h (by decide))

theorem isDigit_ne {c d : Char} (h : isDigitCh c = true)
    (hd : isDigitCh d = false) : c ≠ d := by
  intro he
  subst he
  rw [h] at hd
  exact absurd hd (by decide)

/-- Every `json_dumps` rendering starts with a non-whitespace character
that is not a closing bracket, brace, comma or colon. -/
theorem dumpsChars_head (j : PyObj) :
    ∃ c t, dumpsChars j = c :: t ∧ isWs c = false ∧ c ≠ ']' ∧ c ≠ '}' := by
  cases j with
  | pynone => exact ⟨'n', _, rfl, by decide, by decide, by decide⟩
  | pybool b =>
    cases b
    · exact ⟨'f', _, rfl, by decide, by decide, by decide⟩
    · exact ⟨'t', _, rfl, by decide, by decide, by decide⟩
  | pyint n =>
    have he : dumpsChars (.pyint n) = intChars n := rfl
    rw [he, intChars]
    by_cases hn : n < 0
    · rw [if_pos hn]
      exact ⟨'-', _, rfl, by decide, by decide, by decide⟩
    · rw [if_neg hn]
      obtain ⟨c, t, hct, hd⟩ := natChars_head n.toNat
      exact ⟨c, t, hct, isDigit_not_ws hd, isDigit_ne hd (by decide),
        isDigit_ne hd (by decide)⟩
  | pystr s => exact ⟨'"', _, rfl, by decide, by decide, by decide⟩
  | pylist xs => exact ⟨'[', _, rfl, by decide, by decide, by decide⟩
  | pydict kvs => exact ⟨'{', _, rfl, by decide, by decide, by decide⟩

/-- Lemma: `skipWs` leaves a `json_dumps` rendering (plus anything after it)
untouched. -/
theorem skipWs_dumps (j : PyObj) (x : List Char) :
    skipWs (dumpsChars j ++ x) = dumpsChars j ++ x := by
  obtain ⟨c, t, hct, hws, _, _⟩ := dumpsChars_head j
  rw [hct, List.cons_append, skipWs_cons_of_not_ws _ hws]

/-- The tail of a `", "`-separated element list rendering. -/
def listTail (xs : List PyObj) : List Char :=
  match xs with
  | [] => []
  | _ :: _ => ',' :: ' ' :: dumpsList xs

theorem dumpsList_cons (x : PyObj) (xs : List PyObj) :
    dumpsList (x :: xs) = dumpsChars x ++ listTail xs := by
  cases xs with
  | nil => simp [dumpsList, listTail]
  | cons y rest => simp [dumpsList, listTail]

/-- One `"key": value` chunk of an object rendering. -/
def memChunk (k : String) (v : PyObj) : List Char :=
  '"' :: escapeChars k.toList ++ ['"', ':', ' '] ++ dumpsChars v

/-- The tail of a `", "`-separated member list rendering. -/
def memTail (ms : List (String × PyObj)) : List Char :=
  match ms with
  | [] => []
  | _ :: _ => ',' :: ' ' :: dumpsMembers ms

theorem dumpsMembers_cons (k : String) (v : PyObj) (ms : List (String × PyObj)) :
    dumpsMembers ((k, v) :: ms) = memChunk k v ++ memTail ms := by
  cases ms with
  | nil => simp [dumpsMembers, memChunk, memTail]
  | cons m rest => cases m; simp [dumpsMembers, memChunk, memTail]

theorem pv_round_none (f : Nat) (cs rest : List Char)
    (hskip : skipWs cs = dumpsChars .pynone ++ rest) :
    parseVal (f + 1) cs = some (.pynone, rest) := by
  rw [show dumpsChars .pynone = ['n', 'u', 'l', 'l'] from rfl] at hskip
  rw [parseVal_succ, hskip]
  simp [isDigitCh]

theorem pv_round_bool (f : Nat) (b : Bool) (cs rest : List Char)
    (hskip : skipWs cs = dumpsChars (.pybool b) ++ rest) :
    parseVal (f + 1) cs = some (.pybool b, rest) := by
  cases b
  · rw [show dumpsChars (.pybool false) = ['f', 'a', 'l', 's', 'e'] from rfl] at hskip
    rw [parseVal_succ, hskip]
    simp [isDigitCh]
  · rw [show dumpsChars (.pybool true) = ['t', 'r', 'u', 'e'] from rfl] at hskip
    rw [parseVal_succ, hskip]
    simp [isDigitCh]

theorem pv_round_str (f : Nat) (s : String) (cs rest : List Char)
    (hskip : skipWs cs = dumpsChars (.pystr s) ++ rest) :
    parseVal (f + 1) cs = some (.pystr s, rest) := by
  rw [show dumpsChars (.pystr s) = '"' :: escapeChars s.toList ++ ['"'] from rfl] at hskip
  have hsk : skipWs cs = '"' :: (escapeChars s.toList ++ '"' :: rest) := by
    rw [hskip]; simp
  rw [parseVal_succ, hsk]
  have hps := parseStringRest_escape s.toList rest
  simp only [String.toList] at hps
  simp only [isDigitCh]
  norm_num
  rw [hps]
  cases s
  simp

theorem pv_round_int (f : Nat) (n : Int) (cs rest : List Char)
    (hf : followOk rest = true)
    (hskip : skipWs cs = dumpsChars (.pyint n) ++ rest) :
    parseVal (f + 1) cs = some (.pyint n, rest) := by
  rw [show dumpsChars (.pyint n) = intChars n from rfl, intChars] at hskip
  by_cases hn : n < 0
  · rw [if_pos hn, List.cons_append] at hskip
    rw [parseVal_succ, hskip]
    have hrd : readDigits (natChars n.natAbs ++ rest) = (natChars n.natAbs, rest) :=
      readDigits_append _ _ (natChars_all_digits _) hf
    obtain ⟨d, ds, hnc, hd⟩ := natChars_head n.natAbs
    rw [hnc] at hrd
    rw [hnc, List.cons_append]
    rw [show ((d :: ds) ++ rest : List Char) = d :: (ds ++ rest) from rfl] at hrd
    have hv : digitsToNat 0 (d :: ds) = n.natAbs := by
      rw [← hnc, digitsToNat_natChars_zero]
    have hcast : -(n.natAbs : Int) = n := by omega
    simp only [isDigitCh]
    norm_num
    rw [hrd]
    simp [hv, hcast]
    rw [abs_of_neg hn, neg_neg]
  · rw [if_neg hn] at hskip
    rw [parseVal_succ, hskip]
    have hrd : readDigits (natChars n.toNat ++ rest) = (natChars n.toNat, rest) :=
      readDigits_append _ _ (natChars_all_digits _) hf
    obtain ⟨d, ds, hnc, hd⟩ := natChars_head n.toNat
    rw [hnc] at hrd
    rw [hnc, List.cons_append]
    rw [show ((d :: ds) ++ rest : List Char) = d :: (ds ++ rest) from rfl] at hrd
    have hv : digitsToNat 0 (d :: ds) = n.toNat := by
      rw [← hnc, digitsToNat_natChars_zero]
    have hcast : (n.toNat : Int) = n := by omega
    have hd' : (48 ≤ d.toNat ∧ d.toNat ≤ 57) := by
      simpa [isDigitCh, decide_eq_true_eq] using hd
    simp only [isDigitCh]
    norm_num [hd']
    rw [hrd]
    simp [hv, hcast]

theorem skipWs_dumpsList_cons (y : PyObj) (ys : List PyObj) (x : List Char) :
    skipWs (dumpsList (y :: ys) ++ x) = dumpsList (y :: ys) ++ x := by
  obtain ⟨c0, t0, hct, hws, _, _⟩ := dumpsChars_head y
  rw [dumpsList_cons, hct]
  simp only [List.cons_append, List.append_assoc]
  rw [skipWs_cons_of_not_ws _ hws]

theorem skipWs_dumpsMembers_cons (k : String) (v : PyObj)
    (ms : List (String × PyObj)) (x : List Char) :
    skipWs (dumpsMembers ((k, v) :: ms) ++ x) = dumpsMembers ((k, v) :: ms) ++ x := by
  rw [dumpsMembers_cons]
  simp only [memChunk, List.cons_append, List.append_assoc]
  rw [skipWs_cons_of_not_ws _ (by decide)]

/-- Round-trip statement for `parseVal` at a given fuel. -/
def StmtV (f : Nat) : Prop :=
  ∀ j cs rest, costVal j ≤ f → followOk rest = true →
    skipWs cs = dumpsChars j ++ rest → parseVal f cs = some (j, rest)

/-- Round-trip statement for `parseElems` at a given fuel. -/
def StmtE (f : Nat) : Prop :=
  ∀ xs cs rest, xs ≠ [] → costElems xs ≤ f →
    skipWs cs = dumpsList xs ++ ']' :: rest → parseElems f cs = some (xs, rest)

/-- Round-trip statement for `parseMembers` at a given fuel. -/
def StmtM (f : Nat) : Prop :=
  ∀ ms cs rest, ms ≠ [] → costMembers ms ≤ f →
    skipWs cs = dumpsMembers ms ++ '}' :: rest → parseMembers f cs = some (ms, rest)

theorem pv_round_list (f : Nat) (xs : List PyObj) (cs rest : List Char)
    (ihE : StmtE f) (hc : costVal (.pylist xs) ≤ f + 1)
    (hskip : skipWs cs = dumpsChars (.pylist xs) ++ rest) :
    parseVal (f + 1) cs = some (.pylist xs, rest) := by
  rw [show dumpsChars (.pylist xs) = '[' :: dumpsList xs ++ [']'] from rfl] at hskip
  have hsk : skipWs cs = '[' :: (dumpsList xs ++ ']' :: rest) := by
    rw [hskip]; simp
  rw [parseVal_succ, hsk]
  cases xs with
  | nil =>
    simp [isDigitCh, skipWs, isWs, dumpsList]
  | cons x xs' =>
    obtain ⟨c0, t0, hct, hws, hne1, hne2⟩ := dumpsChars_head x
    have hskipInner : skipWs (dumpsList (x :: xs') ++ ']' :: rest)
        = dumpsList (x :: xs') ++ ']' :: rest :=
      skipWs_dumpsList_cons x xs' (']' :: rest)
    have hcE : costElems (x :: xs') ≤ f := by
      have : costVal (.pylist (x :: xs')) = costElems (x :: xs') + 1 := rfl
      omega
    have hE := ihE (x :: xs') (dumpsList (x :: xs') ++ ']' :: rest) rest
      (by simp) hcE hskipInner
    norm_num [isDigitCh]
    rw [hskipInner, dumpsList_cons, hct]
    simp only [List.cons_append, List.nil_append, List.append_assoc]
    rw [if_neg hne1]
    rw [dumpsList_cons, hct] at hE
    simp only [List.cons_append, List.nil_append, List.append_assoc] at hE
    rw [hE]
    simp

theorem pv_round_dict (f : Nat) (ms : List (String × PyObj)) (cs rest : List Char)
    (ihM : StmtM f) (hc : costVal (.pydict ms) ≤ f + 1)
    (hskip : skipWs cs = dumpsChars (.pydict ms) ++ rest) :
    parseVal (f + 1) cs = some (.pydict ms, rest) := by
  rw [show dumpsChars (.pydict ms) = '{' :: dumpsMembers ms ++ ['}'] from rfl] at hskip
  have hsk : skipWs cs = '{' :: (dumpsMembers ms ++ '}' :: rest) := by
    rw [hskip]; simp
  rw [parseVal_succ, hsk]
  cases ms with
  | nil =>
    simp [isDigitCh, skipWs, isWs, dumpsMembers]
  | cons m ms' =>
    obtain ⟨k, v⟩ := m
    have hskipInner : skipWs (dumpsMembers ((k, v) :: ms') ++ '}' :: rest)
        = dumpsMembers ((k, v) :: ms') ++ '}' :: rest :=
      skipWs_dumpsMembers_cons k v ms' ('}' :: rest)
    have hcM : costMembers ((k, v) :: ms') ≤ f := by
      have : costVal (.pydict ((k, v) :: ms')) = costMembers ((k, v) :: ms') + 1 := rfl
      omega
    have hM := ihM ((k, v) :: ms') (dumpsMembers ((k, v) :: ms') ++ '}' :: rest) rest
      (by simp) hcM hskipInner
    norm_num [isDigitCh]
    rw [hskipInner, dumpsMembers_cons]
    simp only [memChunk, List.cons_append, List.nil_append, List.append_assoc]
    rw [if_neg (show ¬ ('"' : Char) = '}' from by decide)]
    rw [dumpsMembers_cons] at hM
    simp only [memChunk, List.cons_append, List.nil_append, List.append_assoc] at hM
    rw [hM]
    simp

theorem string_mk_toList (s : String) : String.mk s.toList = s := by
  cases s
  rfl

theorem pe_round (f : Nat) (ihV : StmtV f) (ihE : StmtE f) : StmtE (f + 1) := by
  intro xs cs rest hne hc hskip
  cases xs with
  | nil => exact absurd rfl hne
  | cons x xs' =>
    rw [parseElems_succ]
    have hskip1 : skipWs cs = dumpsChars x ++ (listTail xs' ++ ']' :: rest) := by
      rw [hskip, dumpsList_cons, List.append_assoc]
    have hf1 : followOk (listTail xs' ++ ']' :: rest) = true := by
      cases xs' <;> simp [listTail, followOk, isDigitCh]
    have hcx : costVal x ≤ f := by
      have h1 : costElems (x :: xs') = max (costVal x) (costElems xs') + 1 := rfl
      have h2 := le_max_left (costVal x) (costElems xs')
      omega
    rw [ihV x cs _ hcx hf1 hskip1]
    cases xs' with
    | nil =>
      simp [listTail, skipWs, isWs]
    | cons y ys =>
      have hcy : costElems (y :: ys) ≤ f := by
        have h1 : costElems (x :: y :: ys) = max (costVal x) (costElems (y :: ys)) + 1 := rfl
        have h2 := le_max_right (costVal x) (costElems (y :: ys))
        omega
      have hsk2 : skipWs (' ' :: (dumpsList (y :: ys) ++ ']' :: rest))
          = dumpsList (y :: ys) ++ ']' :: rest := by
        rw [skipWs_cons_ws _ (by decide), skipWs_dumpsList_cons]
      have hE2 := ihE (y :: ys) (' ' :: (dumpsList (y :: ys) ++ ']' :: rest)) rest
        (by simp) hcy hsk2
      simp only [listTail, List.cons_append, List.append_assoc]
      rw [skipWs_cons_of_not_ws _ (by decide)]
      simp [hE2]

theorem pm_round (f : Nat) (ihV : StmtV f) (ihM : StmtM f) : StmtM (f + 1) := by
  intro ms cs rest hne hc hskip
  cases ms with
  | nil => exact absurd rfl hne
  | cons m ms' =>
    obtain ⟨k, v⟩ := m
    rw [parseMembers_succ]
    rw [dumpsMembers_cons] at hskip
    simp only [memChunk, List.cons_append, List.nil_append, List.append_assoc] at hskip
    rw [hskip]
    have hps := parseStringRest_escape k.toList
      (':' :: ' ' :: (dumpsChars v ++ (memTail ms' ++ '}' :: rest)))
    have hfv : followOk (memTail ms' ++ '}' :: rest) = true := by
      cases ms' with
      | nil => simp [memTail, followOk, isDigitCh]
      | cons m2 ms2 => cases m2; simp [memTail, followOk, isDigitCh]
    have hskv : skipWs (' ' :: (dumpsChars v ++ (memTail ms' ++ '}' :: rest)))
        = dumpsChars v ++ (memTail ms' ++ '}' :: rest) := by
      rw [skipWs_cons_ws _ (by decide), skipWs_dumps]
    have hcv : costVal v ≤ f := by
      have h1 : costMembers ((k, v) :: ms') = max (costVal v) (costMembers ms') + 1 := rfl
      have h2 := le_max_left (costVal v) (costMembers ms')
      omega
    have hV := ihV v (' ' :: (dumpsChars v ++ (memTail ms' ++ '}' :: rest)))
      (memTail ms' ++ '}' :: rest) hcv hfv hskv
    cases ms' with
    | nil =>
      simp only [memTail, List.nil_append, String.toList] at hps hV ⊢
      simp [hps, hV, skipWs, isWs, string_mk_toList]
    | cons m2 ms2 =>
      obtain ⟨k2, v2⟩ := m2
      have hcm : costMembers ((k2, v2) :: ms2) ≤ f := by
        have h1 : costMembers ((k, v) :: (k2, v2) :: ms2)
            = max (costVal v) (costMembers ((k2, v2) :: ms2)) + 1 := rfl
        have h2 := le_max_right (costVal v) (costMembers ((k2, v2) :: ms2))
        omega
      have hskm : skipWs (' ' :: (dumpsMembers ((k2, v2) :: ms2) ++ '}' :: rest))
          = dumpsMembers ((k2, v2) :: ms2) ++ '}' :: rest := by
        rw [skipWs_cons_ws _ (by decide), skipWs_dumpsMembers_cons]
      have hM2 := ihM ((k2, v2) :: ms2) (' ' :: (dumpsMembers ((k2, v2) :: ms2) ++ '}' :: rest))
        rest (by simp) hcm hskm
      simp only [memTail, List.cons_append, List.append_assoc, String.toList] at hps hV hM2 ⊢
      simp [hps, hV, hM2, skipWs, isWs, string_mk_toList]

/-- The round-trip: at any sufficient fuel, the parser reconstructs
exactly the value `json_dumps` rendered, consuming exactly its
rendering. -/
theorem parse_dumps_round (f : Nat) : StmtV f ∧ StmtE f ∧ StmtM f := by
  induction f with
  | zero =>
    refine ⟨?_, ?_, ?_⟩
    · intro j _ _ hc _ _
      exact absurd hc (by have := costVal_pos j; omega)
    · intro xs _ _ _ hc _
      exact absurd hc (by have := costElems_pos xs; omega)
    · intro ms _ _ _ hc _
      exact absurd hc (by have := costMembers_pos ms; omega)
  | succ f ih =>
    obtain ⟨ihV, ihE, ihM⟩ := ih
    refine ⟨?_, pe_round f ihV ihE, pm_round f ihV ihM⟩
    intro j cs rest hc hf hskip
    cases j with
    | pynone => exact pv_round_none f cs rest hskip
    | pybool b => exact pv_round_bool f b cs rest hskip
    | pyint n => exact pv_round_int f n cs rest hf hskip
    | pystr s => exact pv_round_str f s cs rest hskip
    | pylist xs => exact pv_round_list f xs cs rest ihE hc hskip
    | pydict ms => exact pv_round_dict f ms cs rest ihM hc hskip

theorem dumpsChars_ne_nil (j : PyObj) : dumpsChars j ≠ [] := by
  obtain ⟨c, t, hct, _, _, _⟩ := dumpsChars_head j
  rw [hct]
  simp

mutual

theorem costVal_le_length (j : PyObj) : costVal j ≤ (dumpsChars j).length := by
  cases j with
  | pynone => decide
  | pybool b => cases b <;> simp [costVal, dumpsChars]
  | pyint n =>
    have h1 : costVal (.pyint n) = 1 := rfl
    have h2 : dumpsChars (.pyint n) = intChars n := rfl
    rw [h1, h2, intChars]
    split
    · simp
    · have := natChars_ne_nil n.toNat
      have := List.length_pos.mpr (natChars_ne_nil n.toNat)
      omega
  | pystr s =>
    have h1 : costVal (.pystr s) = 1 := rfl
    have h2 : dumpsChars (.pystr s) = '"' :: escapeChars s.toList ++ ['"'] := rfl
    rw [h1, h2]
    simp
  | pylist xs =>
    have h1 : costVal (.pylist xs) = costElems xs + 1 := rfl
    have h2 : dumpsChars (.pylist xs) = '[' :: dumpsList xs ++ [']'] := rfl
    have h3 := costElems_le_length xs
    rw [h1, h2]
    simp only [List.length_append, List.length_cons, List.length_singleton]
    omega
  | pydict ms =>
    have h1 : costVal (.pydict ms) = costMembers ms + 1 := rfl
    have h2 : dumpsChars (.pydict ms) = '{' :: dumpsMembers ms ++ ['}'] := rfl
    have h3 := costMembers_le_length ms
    rw [h1, h2]
    simp only [List.length_append, List.length_cons, List.length_singleton]
    omega

theorem costElems_le_length (xs : List PyObj) :
    costElems xs ≤ (dumpsList xs).length + 1 := by
  cases xs with
  | nil => simp [costElems, dumpsList]
  | cons x xs' =>
    have h1 : costElems (x :: xs') = max (costVal x) (costElems xs') + 1 := rfl
    have h2 := costVal_le_length x
    have h3 : 1 ≤ (dumpsChars x).length :=
      List.length_pos.mpr (dumpsChars_ne_nil x)
    rw [h1, dumpsList_cons]
    cases xs' with
    | nil =>
      have h4 : costElems ([] : List PyObj) = 1 := rfl
      simp only [listTail, List.append_nil]
      omega
    | cons y ys =>
      have h5 := costElems_le_length (y :: ys)
      have h6 : listTail (y :: ys) = ',' :: ' ' :: dumpsList (y :: ys) := rfl
      rw [h6]
      simp only [List.length_append, List.length_cons]
      omega

theorem costMembers_le_length (ms : List (String × PyObj)) :
    costMembers ms ≤ (dumpsMembers ms).length + 1 := by
  cases ms with
  | nil => simp [costMembers, dumpsMembers]
  | cons m ms' =>
    obtain ⟨k, v⟩ := m
    have h1 : costMembers ((k, v) :: ms') = max (costVal v) (costMembers ms') + 1 := rfl
    have h2 := costVal_le_length v
    rw [h1, dumpsMembers_cons]
    have h3 : (memChunk k v).length = (escapeChars k.toList).length + 4 + (dumpsChars v).length := by
      simp [memChunk]
      omega
    cases ms' with
    | nil =>
      have h4 : costMembers ([] : List (String × PyObj)) = 1 := rfl
      simp only [memTail, List.append_nil]
      omega
    | cons m2 ms2 =>
      have h5 := costMembers_le_length (m2 :: ms2)
      have h6 : memTail (m2 :: ms2) = ',' :: ' ' :: dumpsMembers (m2 :: ms2) := rfl
      rw [h6]
      simp only [List.length_append, List.length_cons]
      omega

end

/-- Every value serialized by `json_dumps` parses back to itself: the
serializer only produces valid JSON. -/
theorem jsonParse_json_dumps (x : PyObj) : jsonParse (json_dumps x) = some x := by
  have hlen : (json_dumps x).length = (dumpsChars x).length := rfl
  have hlist : (json_dumps x).toList = dumpsChars x := rfl
  have hV := (parse_dumps_round ((dumpsChars x).length + 1)).1
  have hc : costVal x ≤ (dumpsChars x).length + 1 := by
    have := costVal_le_length x
    omega
  have hskip0 : skipWs (dumpsChars x) = dumpsChars x := by
    have h := skipWs_dumps x []
    simpa using h
  have hskip : skipWs (dumpsChars x) = dumpsChars x ++ [] := by
    rw [hskip0, List.append_nil]
  have hp := hV x (dumpsChars x) [] hc (by simp [followOk]) hskip
  show (match parseVal ((json_dumps x).length + 1) (json_dumps x).toList with
    | some (j, r) => if (skipWs r).isEmpty then some j else none
    | none => none) = some x
  rw [hlen, hlist, hp]
  simp [skipWs]

/-! ## Data model: `ToolInfo` and its collaborators (`consts/model.py`). -/

/-- Value of `ToolSourceEnum.LOCAL.value`. -/
def SOURCE_LOCAL : String := "local"

/-- Value of `ToolSourceEnum.MCP.value`. -/
def SOURCE_MCP : String := "mcp"

/-- Value of `ToolSourceEnum.LANGCHAIN.value`. -/
def SOURCE_LANGCHAIN : String := "langchain"

/-- One entry of the `params` list built by `get_local_tools`: the dict
`{"type", "name", "description"}` plus either `optional=False`, or the
`default` value together with `optional=True`. -/
structure ParamInfo where
  type : String
  name : String
  description : String
  optional : Bool
  default : Option PyObj

/-- The normalized record `ToolInfo` of `consts/model.py`. -/
structure ToolInfo where
  name : String
  description : String
  params : List ParamInfo
  source : String
  inputs : String
  output_type : String
  class_name : String
  usage : Option String
  origin_name : Option String
  category : Option String

/-! ## Native Adapter (`python_type_to_json_schema`, `get_local_tools`). -/

/-- The pydantic `Field` object used as every constructor parameter's
default in the repository's tool classes: carries `exclude`,
`description` and `default` (`none` models `PydanticUndefined`). -/
structure FieldInfo where
  exclude : Bool
  description : String
  default : Option PyObj

/-- One parameter of a tool class constructor signature, as seen through
`inspect.signature`: its name, its type annotation rendered through
`getattr(annotation, "__name__", str(annotation))` (`none` models a
missing annotation, `inspect.Parameter.empty`), and its `Field` default. -/
structure CtorParam where
  name : String
  annot : Option String
  field : FieldInfo

/-- A class of the native registry `nexent.core.tools`: the class-level
attributes read by `get_local_tools`, plus the constructor signature.
`ctor_params` lists `inspect.signature(cls.__init__).parameters` in
order (including the leading `self`, which carries a throwaway field). -/
structure ToolClass where
  name : String
  description : String
  inputs : PyObj
  output_type : String
  category : Option String
  class_name : String
  ctor_params : List CtorParam

/-- The `type_mapping` dictionary of `python_type_to_json_schema`, in
its insertion order. -/
def type_mapping : List (String × String) :=
  [("str", "string"), ("int", "integer"), ("float", "float"), ("bool", "boolean"),
   ("list", "array"), ("List", "array"), ("tuple", "array"), ("Tuple", "array"),
   ("dict", "object"), ("Dict", "object"), ("Any", "any")]

/-- Python's `dict.get(key, default)` over the assoc-list model. -/
def dictGet (m : List (String × String)) (k dflt : String) : String :=
  match m with
  | [] => dflt
  | (k1, v1) :: rest => if k1 = k then v1 else dictGet rest k dflt

/-- Model of `python_type_to_json_schema`: a missing annotation maps to
`"string"`; otherwise `type_mapping.get(type_name, type_name)` — the
fixed lookup with the literal name passed through when unmapped. -/
def python_type_to_json_schema (annot : Option String) : String :=
  match annot with
  | none => "string"
  | some type_name => dictGet type_mapping type_name type_name

/-- The param descriptor `get_local_tools` emits for one (kept)
constructor parameter. -/
def build_param_info (p : CtorParam) : ParamInfo :=
  { type := python_type_to_json_schema p.annot
    name := p.name
    description := p.field.description
    optional := p.field.default.isSome
    default := p.field.default }

/-- The `init_params_list` loop of `get_local_tools`: skip `self` and
`exclude`-flagged parameters, emit a descriptor for every other one. -/
def init_params_list : List CtorParam → List ParamInfo
  | [] => []
  | p :: rest =>
    if p.name = "self" ∨ p.field.exclude then init_params_list rest
    else build_param_info p :: init_params_list rest

/-- The `ToolInfo` built by `get_local_tools` for one tool class. -/
def local_tool_info (cls : ToolClass) : ToolInfo :=
  { name := cls.name
    description := cls.description
    params := init_params_list cls.ctor_params
    source := SOURCE_LOCAL
    inputs := json_dumps cls.inputs
    output_type := cls.output_type
    class_name := cls.class_name
    usage := none
    origin_name := some cls.name
    category := cls.category }

/-- Model of `get_local_tools`, over the native registry (the classes enumerated
from `nexent.core.tools`). -/
def get_local_tools (classes : List ToolClass) : List ToolInfo :=
  classes.map local_tool_info

/-! ## Plugin (LangChain) Adapter (`_build_tool_info_from_langchain`). -/

/-- A discovered LangChain tool object: `name`, `description`, the `args`
mapping (a dict of per-argument dicts), and the return annotation of the
wrapped callable — `none` models `inspect.signature` raising
`TypeError`/`ValueError`, `some ann` a successful introspection with
annotation `ann` (`none` inside: no annotation). -/
structure LangchainTool where
  name : String
  description : String
  args : List (String × List (String × PyObj))
  ret : Option (Option String)

/-- The `args` backfill loop: any argument dict missing a `description`
key gets `"see the description"` appended. -/
def backfill_langchain_args (args : List (String × List (String × PyObj))) :
    List (String × List (String × PyObj)) :=
  args.map fun kv =>
    (kv.1,
      if hasKey kv.2 "description" then kv.2
      else setKey kv.2 "description" (.pystr "see the description"))

/-- Model of `_build_tool_info_from_langchain`. -/
def build_tool_info_from_langchain (t : LangchainTool) : ToolInfo :=
  let inputs := backfill_langchain_args t.args
  let output_type :=
    match t.ret with
    | none => "string"
    | some ann => python_type_to_json_schema ann
  { name := t.name
    description := t.description
    params := []
    source := SOURCE_LANGCHAIN
    inputs := json_dumps (.pydict (inputs.map fun kv => (kv.1, PyObj.pydict kv.2)))
    output_type := output_type
    class_name := t.name
    usage := none
    origin_name := some t.name
    category := none }

/-- Model of `get_langchain_tools` over the discovered modules. -/
def get_langchain_tools (ts : List LangchainTool) : List ToolInfo :=
  ts.map build_tool_info_from_langchain

/-! ## Remote (MCP) Adapter (`get_tool_from_remote_mcp_server`,
`get_all_mcp_tools`). -/

/-- The shared error taxonomy: `NotFoundException`, `MCPConnectionError`,
`ToolExecutionException` (`consts/exceptions.py`), and plain `Exception`
(`other`). -/
inductive ToolError where
  | notFound (msg : String)
  | mcpConnection (msg : String)
  | execution (msg : String)
  | other (msg : String)

/-- Message `str(e)` of a raised exception. -/
def ToolError.message : ToolError → String
  | .notFound m => m
  | .mcpConnection m => m
  | .execution m => m
  | .other m => m

/-- One tool as returned by a remote server's `list_tools()`. -/
structure RemoteTool where
  name : String
  description : String
  inputSchema : List (String × PyObj)

/-- What a given URL answers to "open a client and list tools": either a
connection/listing failure (anything thrown), or a tool list. -/
inductive RemoteListing where
  | failure
  | tools (ts : List RemoteTool)

/-- The remote world, indexed by server URL. -/
def RemoteEnv := String → RemoteListing

mutual

/-- Executable size of a `PyObj` (used to bound reference-resolution
depth). -/
def pySize : PyObj → Nat
  | .pylist xs => pySizeList xs + 1
  | .pydict kvs => pySizeMembers kvs + 1
  | _ => 1

/-- Executable size of a list of values. -/
def pySizeList : List PyObj → Nat
  | [] => 1
  | v :: vs => pySize v + pySizeList vs + 1

/-- Executable size of a member list. -/
def pySizeMembers : List (String × PyObj) → Nat
  | [] => 1
  | (_, v) :: ms => pySize v + pySizeMembers ms + 1

end

/-- The `$defs` section of a schema, if present. -/
def getDefs (schema : List (String × PyObj)) : List (String × PyObj) :=
  match lookupKey schema "$defs" with
  | some (.pydict ds) => ds
  | _ => []

/-- Model of `jsonref.replace_refs` for internal `#/$defs/NAME`
references: a dict carrying `$ref` is replaced by its (recursively
resolved) target; other dicts and lists are resolved pointwise; the
recursion is fuel-bounded (covers every acyclic schema a server can
send; `jsonref`'s lazy proxies for cyclic schemas have no counterpart in
a finite value model). -/
def resolveRefs (defs : List (String × PyObj)) : Nat → PyObj → PyObj
  | 0, v => v
  | fuel + 1, v =>
    match v with
    | .pydict kvs =>
      match lookupKey kvs "$ref" with
      | some (.pystr r) =>
        if r.startsWith "#/$defs/" then
          match lookupKey defs (r.drop 8) with
          | some tgt => resolveRefs defs fuel tgt
          | none => v
        else v
      | _ => .pydict (kvs.map fun kv => (kv.1, resolveRefs defs fuel kv.2))
    | .pylist xs => .pylist (xs.map (resolveRefs defs fuel))
    | _ => v

/-- Model of the comprehension `(k, v) for k, v in jsonref.replace_refs(schema).items() if k != "$defs"`. -/
def flatten_input_schema (schema : List (String × PyObj)) : List (String × PyObj) :=
  (schema.map fun kv =>
      (kv.1, resolveRefs (getDefs schema) (pySize (PyObj.pydict schema)) kv.2)).filter
    fun kv => kv.1 ≠ "$defs"

/-- The per-property backfill: a property dict missing `description` gets
`"see tool description"`, one missing `type` gets `"string"` (in that
order, mirroring the loop body).  A non-dict property value makes the
item-assignment in the loop raise, which the adapter's `except` turns
into the connection-failure path, hence `none`. -/
def backfillProp (v : PyObj) : Option PyObj :=
  match v with
  | .pydict kvs =>
    let kvs1 :=
      if hasKey kvs "description" then kvs
      else setKey kvs "description" (.pystr "see tool description")
    let kvs2 :=
      if hasKey kvs1 "type" then kvs1
      else setKey kvs1 "type" (.pystr "string")
    some (.pydict kvs2)
  | _ => none

/-- Backfill every property of the flattened schema's `properties` dict. -/
def backfillProps : List (String × PyObj) → Option (List (String × PyObj))
  | [] => some []
  | (k, v) :: rest =>
    match backfillProp v, backfillProps rest with
    | some v', some rest' => some ((k, v') :: rest')
    | _, _ => none

/-- Model of `mcpadapt.smolagents_adapter._sanitize_function_name` (external
dependency, not in this repository): non-identifier characters become
underscores, and a leading digit gets an underscore prefix. -/
def sanitize_function_name (s : String) : String :=
  let mapped := s.toList.map fun c =>
    if c.isAlphanum ∨ c = '_' then c else '_'
  match mapped with
  | [] => ""
  | c :: _ => if c.isDigit then String.mk ('_' :: mapped) else String.mk mapped

/-- The `ToolInfo` built for one remote tool inside
`get_tool_from_remote_mcp_server`; `none` models the loop body raising
(missing or non-dict `properties`, non-dict property value). -/
def process_remote_tool (mcp_server_name : String) (t : RemoteTool) : Option ToolInfo :=
  match lookupKey (flatten_input_schema t.inputSchema) "properties" with
  | some (.pydict props) =>
    match backfillProps props with
    | some props' =>
      some { name := sanitize_function_name t.name
             description := t.description
             params := []
             source := SOURCE_MCP
             inputs := py_str (.pydict props')
             output_type := "string"
             class_name := sanitize_function_name t.name
             usage := some mcp_server_name
             origin_name := some t.name
             category := none }
    | none => none
  | _ => none

/-- Process a whole listing; any per-tool raise aborts the listing. -/
def process_remote_tools (mcp_server_name : String) :
    List RemoteTool → Option (List ToolInfo)
  | [] => some []
  | t :: rest =>
    match process_remote_tool mcp_server_name t, process_remote_tools mcp_server_name rest with
    | some ti, some rest' => some (ti :: rest')
    | _, _ => none

/-- Model of `get_tool_from_remote_mcp_server`: open a client against the URL and
list tools; anything thrown inside (connection, listing, or per-tool
processing) is wrapped into `MCPConnectionError`. -/
def get_tool_from_remote_mcp_server (env : RemoteEnv) (mcp_server_name : String)
    (remote_mcp_server : String) : Except ToolError (List ToolInfo) :=
  match env remote_mcp_server with
  | .failure =>
    .error (.mcpConnection "failed to get tool from remote MCP server")
  | .tools ts =>
    match process_remote_tools mcp_server_name ts with
    | some tis => .ok tis
    | none =>
      .error (.mcpConnection "failed to get tool from remote MCP server")

/-- One row of `mcp_record_t` for the tenant
(`get_mcp_records_by_tenant`). -/
structure McpRecord where
  mcp_name : String
  mcp_server : String
  status : Bool

/-- Modelled from the spec: `LOCAL_MCP_SERVER` (`consts/const.py` is not
part of the provided sources) — the base URL of the implicit default
local server, always queried regardless of registration state. -/
def LOCAL_MCP_SERVER : String := "http://localhost:5011/"

/-- Value of `urljoin(LOCAL_MCP_SERVER, "sse")` for a base URL ending in `/`. -/
def default_mcp_url : String := LOCAL_MCP_SERVER ++ "sse"

/-- The registered-servers loop of `get_all_mcp_tools`: only
`status`-true records are queried, and a failure for one server is
caught and logged (the accumulator is left as is). -/
def collect_registered_tools (env : RemoteEnv) : List McpRecord → List ToolInfo
  | [] => []
  | r :: rest =>
    (if r.status then
      match get_tool_from_remote_mcp_server env r.mcp_name r.mcp_server with
      | .ok ts => ts
      | .error _ => []
    else []) ++ collect_registered_tools env rest

/-- Model of `get_all_mcp_tools`: swallow per-registered-server failures, then
query the implicit default server `"nexent"` with no guard — its failure
propagates. -/
def get_all_mcp_tools (env : RemoteEnv) (records : List McpRecord) :
    Except ToolError (List ToolInfo) :=
  match get_tool_from_remote_mcp_server env "nexent" default_mcp_url with
  | .ok ts => .ok (collect_registered_tools env records ++ ts)
  | .error e => .error e

/-! ## Catalog Reconciler (`update_tool_list`, startup loop). -/

/-- One call to `update_tool_table_from_scan_tool_list`: the catalog
upsert the reconciler performs on success. -/
structure DbWrite where
  tenant_id : String
  user_id : String
  tool_list : List ToolInfo

/-- Model of `update_tool_list`: gather native, LangChain and remote tools; a
remote-aggregation failure is re-raised as `MCPConnectionError` before
any write happens.  The first component lists the catalog writes
performed (empty on the error path: nothing is persisted). -/
def update_tool_list (env : RemoteEnv) (records : List McpRecord)
    (classes : List ToolClass) (lcTools : List LangchainTool)
    (tenant_id user_id : String) : List DbWrite × Option ToolError :=
  let local_tools := get_local_tools classes
  let langchain_tools := get_langchain_tools lcTools
  match get_all_mcp_tools env records with
  | .error e =>
    ([], some (.mcpConnection ("failed to get all mcp tools, detail: " ++ e.message)))
  | .ok mcp_tools =>
    ([{ tenant_id := tenant_id, user_id := user_id,
        tool_list := local_tools ++ mcp_tools ++ langchain_tools }], none)

/-- The outcome of one tenant's iteration inside the startup loop:
`update_tool_list` finished and `query_all_tools` counted `n` tools;
or the 60-second `asyncio.wait_for` guard fired (`timeout`); or some
other exception with message `msg` was raised (`failure`). -/
inductive TenantScanOutcome where
  | success (toolCount : Nat)
  | timeout
  | failure (msg : String)

/-- The summary accumulated by `initialize_tools_on_startup`:
`total_tools`, `successful_tenants`, and the `failed_tenants` markers. -/
structure StartupSummary where
  total_tools : Nat
  successful_tenants : Nat
  failed_tenants : List String

/-- One iteration of the per-tenant loop in
`initialize_tools_on_startup`: a success adds the tenant's tool count
and bumps the success counter; a timeout appends
`"<tenant> (timeout)"`; any other exception appends
`"<tenant> (error: <msg>)"`.  Processing always continues. -/
def tenant_step (outcome : String → TenantScanOutcome)
    (acc : StartupSummary) (t : String) : StartupSummary :=
  match outcome t with
  | .success n =>
    { acc with total_tools := acc.total_tools + n,
               successful_tenants := acc.successful_tenants + 1 }
  | .timeout =>
    { acc with failed_tenants := acc.failed_tenants ++ [t ++ " (timeout)"] }
  | .failure m =>
    { acc with failed_tenants := acc.failed_tenants ++ [t ++ " (error: " ++ m ++ ")"] }

/-- The per-tenant loop of `initialize_tools_on_startup` over the tenant
list, producing the final summary. -/
def scan_tenants_loop (outcome : String → TenantScanOutcome)
    (tenants : List String) : StartupSummary :=
  tenants.foldl (tenant_step outcome) ⟨0, 0, []⟩

/-- Model of `initialize_tools_on_startup`: with no tenants it returns early with
no summary; otherwise it runs the loop and reports the summary. -/
def scan_all_tenants_startup (outcome : String → TenantScanOutcome)
    (tenants : List String) : Option StartupSummary :=
  if tenants.isEmpty then none
  else some (scan_tenants_loop outcome tenants)

/-! ## Dispatch Router (`validate_tool_impl` and its branches). -/

/-- Model of `ToolValidateRequest` (`consts/model.py`). -/
structure ToolValidateRequest where
  name : String
  source : String
  usage : Option String
  inputs : Option (List (String × PyObj))
  params : Option (List (String × PyObj))

/-- The value a successful validation returns: the first result's text
for MCP calls, the raw object returned by `forward`/`invoke`
otherwise. -/
inductive ValidatedValue where
  | text (s : String)
  | obj (v : PyObj)

/-- The live MCP world seen by `_call_mcp_tool`: per URL, whether the
session reports connected, and what `call_tool` returns (`Except.error`
models any exception it raises, carrying `str(e)`). -/
structure McpEnv where
  connected : String → Bool
  call : String → String → List (String × PyObj) → Except String String

/-- Model of `_call_mcp_tool`: opens a client against `mcp_url` (recorded in the
trace), fails with `MCPConnectionError` if the session is not connected,
otherwise calls the tool and returns the first result's text. -/
def call_mcp_tool (env : McpEnv) (mcp_url tool_name : String)
    (inputs : Option (List (String × PyObj))) :
    List String × Except ToolError String :=
  ([mcp_url],
    if env.connected mcp_url then
      match env.call mcp_url tool_name (inputs.getD []) with
      | .ok t => .ok t
      | .error m => .error (.other m)
    else .error (.mcpConnection "Failed to connect to MCP server"))

/-- Model of `_validate_mcp_tool_nexent`: always the implicit default server. -/
def validate_mcp_tool_nexent (env : McpEnv) (tool_name : String)
    (inputs : Option (List (String × PyObj))) :
    List String × Except ToolError String :=
  call_mcp_tool env default_mcp_url tool_name inputs

/-- How the f-string renders the `usage` value inside the NotFound
message (`None` for a missing value). -/
def showOptStr : Option String → String
  | none => "None"
  | some s => s

/-- Model of `_validate_mcp_tool_remote`: resolve `usage` against the tenant's
registered servers (`get_mcp_server_by_name_and_tenant`, a database
lookup — no network); absent server: `NotFoundException` before any
client is opened (empty trace). -/
def validate_mcp_tool_remote (env : McpEnv)
    (dbLookup : Option String → Option String → Option String)
    (tool_name : String) (inputs : Option (List (String × PyObj)))
    (usage : Option String) (tenant_id : Option String) :
    List String × Except ToolError String :=
  match dbLookup usage tenant_id with
  | none => ([], .error (.notFound ("MCP server not found for name: " ++ showOptStr usage)))
  | some url => call_mcp_tool env url tool_name inputs

/-- Model of `_get_tool_class_by_name`: linear scan of the native registry for a
class whose `name` attribute equals the requested name. -/
def get_tool_class_by_name (classes : List ToolClass) (tool_name : String) :
    Option ToolClass :=
  classes.find? fun c => c.name = tool_name

/-- Instantiation and `forward` execution of a native tool: `.error m`
models any exception with `str(e) = m`. -/
def LocalExecEnv :=
  ToolClass → List (String × PyObj) → List (String × PyObj) → Except String PyObj

/-- The constructor arguments `_validate_local_tool` passes: the caller's
`params` (or `{}`), with a null `observer` injected when the constructor
accepts one and the caller did not supply it. -/
def instantiation_params (cls : ToolClass)
    (params : Option (List (String × PyObj))) : List (String × PyObj) :=
  let base := params.getD []
  if (cls.ctor_params.any fun p => p.name = "observer") ∧ ¬ hasKey base "observer"
  then setKey base "observer" .pynone
  else base

/-- The body of `_validate_local_tool`'s `try` block: resolve the class
(raising `NotFoundException` if absent), instantiate it and call
`forward`. -/
def validate_local_tool_body (run : LocalExecEnv) (classes : List ToolClass)
    (tool_name : String) (inputs params : Option (List (String × PyObj))) :
    Except ToolError PyObj :=
  match get_tool_class_by_name classes tool_name with
  | none => .error (.notFound ("Tool class not found for " ++ tool_name))
  | some cls =>
    match run cls (instantiation_params cls params) (inputs.getD []) with
    | .ok v => .ok v
    | .error m => .error (.other m)

/-- Model of `_validate_local_tool`: the surrounding `except Exception` wraps
every raise — the `NotFoundException` included — into
`ToolExecutionException("Local tool <name> validation failed: <str(e)>")`. -/
def validate_local_tool (run : LocalExecEnv) (classes : List ToolClass)
    (tool_name : String) (inputs params : Option (List (String × PyObj))) :
    Except ToolError PyObj :=
  match validate_local_tool_body run classes tool_name inputs params with
  | .ok v => .ok v
  | .error e =>
    .error (.execution ("Local tool " ++ tool_name ++ " validation failed: " ++ e.message))

/-- The LangChain execution world: the discovered tools and what
`invoke` returns on each. -/
structure LangchainExecEnv where
  discovered : List LangchainTool
  invoke : LangchainTool → List (String × PyObj) → Except String PyObj

/-- The body of `_validate_langchain_tool`'s `try` block. -/
def validate_langchain_tool_body (env : LangchainExecEnv) (tool_name : String)
    (inputs : Option (List (String × PyObj))) : Except ToolError PyObj :=
  match env.discovered.find? (fun t => t.name = tool_name) with
  | none => .error (.notFound ("Tool '" ++ tool_name ++ "' not found in LangChain tools"))
  | some t =>
    match env.invoke t (inputs.getD []) with
    | .ok v => .ok v
    | .error m => .error (.other m)

/-- Model of `_validate_langchain_tool`: as for the local path, the catch-all
wraps every raise into `ToolExecutionException`. -/
def validate_langchain_tool (env : LangchainExecEnv) (tool_name : String)
    (inputs : Option (List (String × PyObj))) : Except ToolError PyObj :=
  match validate_langchain_tool_body env tool_name inputs with
  | .ok v => .ok v
  | .error e =>
    .error (.execution ("LangChain tool '" ++ tool_name ++ "' validation failed: " ++ e.message))

/-- All collaborators `validate_tool_impl` dispatches into. -/
structure DispatchEnv where
  mcp : McpEnv
  dbLookup : Option String → Option String → Option String
  classes : List ToolClass
  run : LocalExecEnv
  langchain : LangchainExecEnv

/-- The `try` body of `validate_tool_impl`: route on `source`, raising a
plain `Exception` for an unknown source.  The trace lists the URLs
against which a protocol client was opened. -/
def validate_tool_impl_body (env : DispatchEnv) (request : ToolValidateRequest)
    (tenant_id : Option String) : List String × Except ToolError ValidatedValue :=
  if request.source = SOURCE_MCP then
    if request.usage = some "nexent" then
      let (tr, r) := validate_mcp_tool_nexent env.mcp request.name request.inputs
      (tr, r.map .text)
    else
      let (tr, r) := validate_mcp_tool_remote env.mcp env.dbLookup request.name
        request.inputs request.usage tenant_id
      (tr, r.map .text)
  else if request.source = SOURCE_LOCAL then
    ([], (validate_local_tool env.run env.classes request.name request.inputs
      request.params).map .obj)
  else if request.source = SOURCE_LANGCHAIN then
    ([], (validate_langchain_tool env.langchain request.name request.inputs).map .obj)
  else
    ([], .error (.other ("Unsupported tool source: " ++ request.source)))

/-- Model of `validate_tool_impl`: `NotFoundException` and `MCPConnectionError`
re-raise with their identity (and message) preserved; every other
exception collapses into `ToolExecutionException(str(e))`. -/
def validate_tool_impl (env : DispatchEnv) (request : ToolValidateRequest)
    (tenant_id : Option String) : List String × Except ToolError ValidatedValue :=
  let (tr, r) := validate_tool_impl_body env request tenant_id
  (tr,
    match r with
    | .ok v => .ok v
    | .error (.notFound m) => .error (.notFound m)
    | .error (.mcpConnection m) => .error (.mcpConnection m)
    | .error e => .error (.execution e.message))

/-! ## Properties of the dict model. -/

theorem lookup_setKey_self (kvs : List (String × PyObj)) (k : String) (v : PyObj) :
    lookupKey (setKey kvs k v) k = some v := by
  induction kvs with
  | nil => simp [setKey, lookupKey]
  | cons kv rest ih =>
    obtain ⟨k', v'⟩ := kv
    by_cases h : k' = k
    · simp [setKey, lookupKey, h]
    · simp [setKey, lookupKey, h, ih]

theorem lookup_setKey_other (kvs : List (String × PyObj)) (k k2 : String) (v : PyObj)
    (h : k2 ≠ k) :
    lookupKey (setKey kvs k v) k2 = lookupKey kvs k2 := by
  induction kvs with
  | nil =>
    simp only [setKey, lookupKey]
    rw [if_neg (fun he => h he.symm)]
  | cons kv rest ih =>
    obtain ⟨k', v'⟩ := kv
    by_cases h1 : k' = k
    · subst h1
      simp only [setKey, if_pos rfl, lookupKey]
      rw [if_neg (fun he => h he.symm), if_neg (fun he => h he.symm)]
    · simp only [setKey, if_neg h1, lookupKey]
      by_cases h2 : k' = k2
      · rw [if_pos h2, if_pos h2]
      · rw [if_neg h2, if_neg h2, ih]

theorem hasKey_setKey_other (kvs : List (String × PyObj)) (k k2 : String) (v : PyObj)
    (h : k2 ≠ k) :
    hasKey (setKey kvs k v) k2 = hasKey kvs k2 := by
  simp only [hasKey, lookup_setKey_other kvs k k2 v h]

/-- What the backfill does to one (dict-valued) property: `description`
and `type` are the originals when present and the defaults otherwise;
every other key is untouched. -/
theorem backfillProp_spec (kvs : List (String × PyObj)) :
    ∃ kvs2, backfillProp (.pydict kvs) = some (.pydict kvs2)
      ∧ lookupKey kvs2 "description"
          = some ((lookupKey kvs "description").getD (.pystr "see tool description"))
      ∧ lookupKey kvs2 "type"
          = some ((lookupKey kvs "type").getD (.pystr "string"))
      ∧ ∀ k2, k2 ≠ "description" → k2 ≠ "type" →
          lookupKey kvs2 k2 = lookupKey kvs k2 := by
  have hdt : ("type" : String) ≠ "description" := by decide
  by_cases hd : hasKey kvs "description"
  · by_cases ht : hasKey kvs "type"
    · refine ⟨kvs, by simp [backfillProp, hd, ht], ?_, ?_, fun _ _ _ => rfl⟩
      · obtain ⟨vd, hvd⟩ := Option.isSome_iff_exists.mp hd
        simp [hvd]
      · obtain ⟨vt, hvt⟩ := Option.isSome_iff_exists.mp ht
        simp [hvt]
    · refine ⟨setKey kvs "type" (.pystr "string"), by simp [backfillProp, hd, ht], ?_, ?_, ?_⟩
      · rw [lookup_setKey_other _ _ _ _ (by decide)]
        obtain ⟨vd, hvd⟩ := Option.isSome_iff_exists.mp hd
        simp [hvd]
      · rw [lookup_setKey_self]
        simp only [hasKey, Option.isSome_iff_exists] at ht
        push_neg at ht
        cases hvt : lookupKey kvs "type" with
        | none => simp
        | some vt => exact absurd hvt (ht vt)
      · intro k2 _ h2
        exact lookup_setKey_other _ _ _ _ h2
  · have hts : hasKey (setKey kvs "description" (.pystr "see tool description")) "type"
        = hasKey kvs "type" := hasKey_setKey_other _ _ _ _ hdt
    by_cases ht : hasKey kvs "type"
    · refine ⟨setKey kvs "description" (.pystr "see tool description"),
        by simp [backfillProp, hd, hts, ht], ?_, ?_, ?_⟩
      · rw [lookup_setKey_self]
        simp only [hasKey, Option.isSome_iff_exists] at hd
        push_neg at hd
        cases hvd : lookupKey kvs "description" with
        | none => simp
        | some vd => exact absurd hvd (hd vd)
      · rw [lookup_setKey_other _ _ _ _ hdt]
        obtain ⟨vt, hvt⟩ := Option.isSome_iff_exists.mp ht
        simp [hvt]
      · intro k2 h1 _
        exact lookup_setKey_other _ _ _ _ h1
    · refine ⟨setKey (setKey kvs "description" (.pystr "see tool description"))
        "type" (.pystr "string"), by simp [backfillProp, hd, hts, ht], ?_, ?_, ?_⟩
      · rw [lookup_setKey_other _ _ _ _ (by decide), lookup_setKey_self]
        simp only [hasKey, Option.isSome_iff_exists] at hd
        push_neg at hd
        cases hvd : lookupKey kvs "description" with
        | none => simp
        | some vd => exact absurd hvd (hd vd)
      · rw [lookup_setKey_self]
        simp only [hasKey, Option.isSome_iff_exists] at ht
        push_neg at ht
        cases hvt : lookupKey kvs "type" with
        | none => simp
        | some vt => exact absurd hvt (ht vt)
      · intro k2 h1 h2
        rw [lookup_setKey_other _ _ _ _ h2, lookup_setKey_other _ _ _ _ h1]

/-- Lemma: `backfillProps` succeeds exactly by backfilling each property in
place. -/
theorem backfillProps_lookup (props props' : List (String × PyObj))
    (hb : backfillProps props = some props') (k : String) (v : PyObj)
    (hk : lookupKey props k = some v) :
    ∃ v', backfillProp v = some v' ∧ lookupKey props' k = some v' := by
  induction props generalizing props' with
  | nil => simp [lookupKey] at hk
  | cons kv rest ih =>
    obtain ⟨k1, v1⟩ := kv
    simp only [backfillProps] at hb
    cases hb1 : backfillProp v1 with
    | none => rw [hb1] at hb; simp at hb
    | some v1' =>
      rw [hb1] at hb
      cases hb2 : backfillProps rest with
      | none => rw [hb2] at hb; simp at hb
      | some rest' =>
        rw [hb2] at hb
        simp only [Option.some.injEq] at hb
        subst hb
        by_cases hkk : k1 = k
        · subst hkk
          simp only [lookupKey, if_pos rfl] at hk ⊢
          cases hk
          exact ⟨v1', hb1, rfl⟩
        · simp only [lookupKey, if_neg hkk] at hk ⊢
          exact ih rest' hb2 hk

/-! ## Claim theorems. -/

/-- C7: for every remote tool whose flattened input schema carries a
`properties` dict that the backfill accepts, the resulting descriptor's
`inputs` is the rendering of the backfilled properties, where every
property missing a `description` receives `"see tool description"`,
every property missing a `type` receives `"string"`, and keys already
present (these two included) keep their original values. -/
theorem c7_input_schema_backfill (server : String) (t : RemoteTool)
    (props props' : List (String × PyObj))
    (hp : lookupKey (flatten_input_schema t.inputSchema) "properties"
      = some (.pydict props))
    (hb : backfillProps props = some props') :
    (process_remote_tool server t).map ToolInfo.inputs
        = some (py_str (.pydict props'))
    ∧ ∀ k v, lookupKey props k = some v →
        ∃ kvs kvs', v = .pydict kvs
          ∧ lookupKey props' k = some (.pydict kvs')
          ∧ lookupKey kvs' "description"
              = some ((lookupKey kvs "description").getD (.pystr "see tool description"))
          ∧ lookupKey kvs' "type"
              = some ((lookupKey kvs "type").getD (.pystr "string"))
          ∧ ∀ k2, k2 ≠ "description" → k2 ≠ "type" →
              lookupKey kvs' k2 = lookupKey kvs k2 := by
  constructor
  · simp [process_remote_tool, hp, hb]
  · intro k v hk
    obtain ⟨v', hbp, hk'⟩ := backfillProps_lookup props props' hb k v hk
    cases v with
    | pydict kvs =>
      obtain ⟨kvs2, hbp2, hd, ht, hrest⟩ := backfillProp_spec kvs
      rw [hbp] at hbp2
      cases hbp2
      exact ⟨kvs, kvs2, rfl, hk', hd, ht, hrest⟩
    | pynone => simp [backfillProp] at hbp
    | pybool b => simp [backfillProp] at hbp
    | pyint n => simp [backfillProp] at hbp
    | pystr s => simp [backfillProp] at hbp
    | pylist xs => simp [backfillProp] at hbp

/-- C7 witness: the spec's own example — a remote tool whose
`inputSchema.properties.param1` has neither `description` nor `type`
yields `inputs` containing `param1` with the two backfilled values. -/
theorem c7_witness :
    (process_remote_tool "srv"
        { name := "t1", description := "d",
          inputSchema := [("properties", .pydict [("param1", .pydict [])])] }).map
        ToolInfo.inputs
      = some (py_str (.pydict [("param1",
          .pydict [("description", .pystr "see tool description"),
                   ("type", .pystr "string")])]))
    ∧ ∀ k v, lookupKey [("param1", PyObj.pydict [])] k = some v →
        ∃ kvs kvs', v = .pydict kvs
          ∧ lookupKey [("param1",
              PyObj.pydict [("description", PyObj.pystr "see tool description"),
                ("type", PyObj.pystr "string")])] k = some (.pydict kvs')
          ∧ lookupKey kvs' "description"
              = some ((lookupKey kvs "description").getD (.pystr "see tool description"))
          ∧ lookupKey kvs' "type"
              = some ((lookupKey kvs "type").getD (.pystr "string"))
          ∧ ∀ k2, k2 ≠ "description" → k2 ≠ "type" →
              lookupKey kvs' k2 = lookupKey kvs k2 :=
  c7_input_schema_backfill "srv"
    { name := "t1", description := "d",
      inputSchema := [("properties", .pydict [("param1", .pydict [])])] }
    [("param1", .pydict [])]
    [("param1", .pydict [("description", .pystr "see tool description"),
        ("type", .pystr "string")])]
    (by rfl) (by rfl)

/-- Every descriptor `process_remote_tool` produces has
`output_type = "string"` and empty `params`. -/
theorem process_remote_tool_fields (server : String) (t : RemoteTool)
    (ti : ToolInfo) (h : process_remote_tool server t = some ti) :
    ti.output_type = "string" ∧ ti.params = [] := by
  simp only [process_remote_tool] at h
  split at h
  · split at h
    · cases h
      exact ⟨rfl, rfl⟩
    · exact absurd h (by simp)
  · exact absurd h (by simp)

/-- Every descriptor a successful remote listing produces has
`output_type = "string"` and empty `params`. -/
theorem process_remote_tools_fields (server : String) (ts : List RemoteTool)
    (tis : List ToolInfo) (h : process_remote_tools server ts = some tis) :
    ∀ ti ∈ tis, ti.output_type = "string" ∧ ti.params = [] := by
  induction ts generalizing tis with
  | nil =>
    simp only [process_remote_tools, Option.some.injEq] at h
    subst h
    intro ti hti
    simp at hti
  | cons t rest ih =>
    simp only [process_remote_tools] at h
    split at h
    · rename_i ti1 rest' h1 h2
      cases h
      intro ti hti
      rcases List.mem_cons.mp hti with h3 | h3
      · subst h3
        exact process_remote_tool_fields server t ti h1
      · exact ih rest' h2 ti h3
    · exact absurd h (by simp)

/-- C10: every `ToolDescriptor` the Remote Adapter produces has
`output_type` equal to the constant `"string"` and an empty `params`
list, whatever the remote tool declares. -/
theorem c10_remote_output_type_and_params (env : RemoteEnv) (server url : String)
    (tis : List ToolInfo)
    (h : get_tool_from_remote_mcp_server env server url = .ok tis) :
    ∀ ti ∈ tis, ti.output_type = "string" ∧ ti.params = [] := by
  simp only [get_tool_from_remote_mcp_server] at h
  split at h
  · exact absurd h (by simp)
  · rename_i ts heq
    split at h
    · rename_i tl hpt
      have h2 : tl = tis := by injection h
      subst h2
      exact process_remote_tools_fields server ts tl hpt
    · exact absurd h (by simp)

/-- A remote tool that declares an `integer`-typed property, used as a
concrete instance. -/
def c10_example_tool : RemoteTool :=
  { name := "t1"
    description := "d"
    inputSchema := [("properties", .pydict [("p", .pydict [("description", .pystr "x"),
      ("type", .pystr "integer")])])] }

/-- A one-server remote world serving that tool. -/
def c10_example_env : RemoteEnv := fun _ => .tools [c10_example_tool]

/-- The descriptor that world's listing produces. -/
def c10_example_descriptor : ToolInfo :=
  { name := "t1", description := "d", params := [], source := SOURCE_MCP,
    inputs := py_str (.pydict [("p", .pydict [("description", .pystr "x"),
      ("type", .pystr "integer")])]),
    output_type := "string", class_name := "t1", usage := some "srv",
    origin_name := some "t1", category := none }

/-- C10 witness: a concrete listing with one tool that declares a
non-"string" output shape still yields `"string"`/`[]`. -/
theorem c10_witness :
    c10_example_descriptor.output_type = "string"
    ∧ c10_example_descriptor.params = [] :=
  c10_remote_output_type_and_params c10_example_env "srv" "http://u"
    [c10_example_descriptor] (by rfl) c10_example_descriptor (by simp)

/-- C5: if the Remote Adapter step of a scan raises, the whole scan
aborts with the `MCPConnectionError` and the persisted catalog is not
written at all — no partial upsert of the already-collected native or
plugin descriptors happens. -/
theorem c5_no_write_on_remote_failure (env : RemoteEnv) (records : List McpRecord)
    (classes : List ToolClass) (lcTools : List LangchainTool)
    (tenant_id user_id : String) (e : ToolError)
    (h : get_all_mcp_tools env records = .error e) :
    (update_tool_list env records classes lcTools tenant_id user_id).1 = []
    ∧ (update_tool_list env records classes lcTools tenant_id user_id).2
        = some (.mcpConnection ("failed to get all mcp tools, detail: " ++ e.message)) := by
  constructor <;> simp [update_tool_list, h]

/-- A remote world in which every URL fails. -/
def all_failing_env : RemoteEnv := fun _ => .failure

/-- C5 witness: with every remote source down, the scan performs no
catalog write and reports the connection failure. -/
theorem c5_witness :
    (update_tool_list all_failing_env [] [] [] "t1" "u1").1 = []
    ∧ (update_tool_list all_failing_env [] [] [] "t1" "u1").2
        = some (.mcpConnection ("failed to get all mcp tools, detail: "
            ++ (ToolError.mcpConnection "failed to get tool from remote MCP server").message)) :=
  c5_no_write_on_remote_failure all_failing_env [] [] [] "t1" "u1"
    (.mcpConnection "failed to get tool from remote MCP server") (by rfl)

/-- C6: a validate request with source MCP and a `usage` naming a server
absent from the tenant's registered list (and different from the
`"nexent"` default token) fails with the NotFound condition — identity
preserved through `validate_tool_impl` — and the trace of opened
protocol clients is empty: no network connection is attempted. -/
theorem c6_mcp_absent_server_notfound (env : DispatchEnv) (name usage : String)
    (inputs params : Option (List (String × PyObj))) (tenant : Option String)
    (hne : usage ≠ "nexent")
    (habs : env.dbLookup (some usage) tenant = none) :
    validate_tool_impl env
        { name := name, source := SOURCE_MCP, usage := some usage,
          inputs := inputs, params := params } tenant
      = ([], .error (.notFound ("MCP server not found for name: " ++ usage))) := by
  have hu : (some usage = some "nexent") = False := by
    simp [hne]
  simp [validate_tool_impl, validate_tool_impl_body, SOURCE_MCP, hu,
    validate_mcp_tool_remote, habs, showOptStr, Except.map]

/-- A dispatch world with no registered servers, no native classes and no
plugins. -/
def empty_dispatch_env : DispatchEnv :=
  { mcp := { connected := fun _ => false, call := fun _ _ _ => .error "down" }
    dbLookup := fun _ _ => none
    classes := []
    run := fun _ _ _ => .error "no tool"
    langchain := { discovered := [], invoke := fun _ _ => .error "no tool" } }

/-- C6 witness: a concrete MCP validate against an unregistered server
name returns NotFound with an empty network trace. -/
theorem c6_witness :
    validate_tool_impl empty_dispatch_env
        { name := "t", source := SOURCE_MCP, usage := some "srv",
          inputs := none, params := none } none
      = ([], .error (.notFound ("MCP server not found for name: " ++ "srv"))) :=
  c6_mcp_absent_server_notfound empty_dispatch_env "t" "srv" none none none
    (by decide) (by rfl)

/-- The type table exactly as the claim words it (C8): str→string,
int→integer, float→float, bool→boolean, list/List/tuple/Tuple→array,
dict/Dict→object, Any→any, unrecognized annotations pass through as
their literal name, an absent annotation maps to "string". -/
def claimed_type_map (annot : Option String) : String :=
  match annot with
  | none => "string"
  | some t =>
    if t = "str" then "string"
    else if t = "int" then "integer"
    else if t = "float" then "float"
    else if t = "bool" then "boolean"
    else if t = "list" then "array"
    else if t = "List" then "array"
    else if t = "tuple" then "array"
    else if t = "Tuple" then "array"
    else if t = "dict" then "object"
    else if t = "Dict" then "object"
    else if t = "Any" then "any"
    else t

/-- The param descriptor exactly as the claim words it (C8): mapped
type, name, declared description; no default means `optional = false`,
a default means `optional = true` together with that default value. -/
def claimed_param_descriptor (p : CtorParam) : ParamInfo :=
  { type := claimed_type_map p.annot
    name := p.name
    description := p.field.description
    optional := match p.field.default with | none => false | some _ => true
    default := p.field.default }

theorem type_map_agrees (a : Option String) :
    python_type_to_json_schema a = claimed_type_map a := by
  cases a with
  | none => rfl
  | some t =>
    simp only [python_type_to_json_schema, claimed_type_map, type_mapping, dictGet]
    simp only [eq_comm]

theorem build_param_info_agrees (p : CtorParam) :
    build_param_info p = claimed_param_descriptor p := by
  simp only [build_param_info, claimed_param_descriptor, type_map_agrees]
  cases p.field.default <;> rfl

theorem init_params_list_eq_filter_map (ps : List CtorParam) :
    init_params_list ps
      = (ps.filter fun p => ¬ (p.name = "self" ∨ p.field.exclude)).map build_param_info := by
  induction ps with
  | nil => rfl
  | cons p rest ih =>
    by_cases h : p.name = "self" ∨ p.field.exclude
    · simp [init_params_list, h, List.filter, ih]
    · simp [init_params_list, h, List.filter, ih]

/-- C8: the Native Adapter emits one param descriptor per constructor
parameter except `self` and `exclude`-flagged ones, each exactly as the
claim's table specifies (type mapping, description, optional flag and
default). -/
theorem c8_native_param_descriptors (cls : ToolClass) :
    (local_tool_info cls).params
      = (cls.ctor_params.filter fun p => ¬ (p.name = "self" ∨ p.field.exclude)).map
          claimed_param_descriptor := by
  have h1 : (local_tool_info cls).params = init_params_list cls.ctor_params := rfl
  rw [h1, init_params_list_eq_filter_map]
  exact List.map_congr_left fun p _ => build_param_info_agrees p

/-- Whether a validation outcome is the NotFound condition. -/
def isNotFoundResult {α : Type} : Except ToolError α → Bool
  | .error (.notFound _) => true
  | _ => false

/-- A LOCAL validation is either a success or an ExecutionFailed — its
catch-all wraps every raise, the internal `NotFoundException`
included. -/
theorem validate_local_tool_shape (run : LocalExecEnv) (classes : List ToolClass)
    (n : String) (i p : Option (List (String × PyObj))) :
    (∃ v, validate_local_tool run classes n i p = .ok v)
    ∨ (∃ m, validate_local_tool run classes n i p = .error (.execution m)) := by
  unfold validate_local_tool
  cases validate_local_tool_body run classes n i p with
  | ok v => exact .inl ⟨v, rfl⟩
  | error e => exact .inr ⟨_, rfl⟩

/-- C1 (counterexample): with name `"X"` absent from the native
registry, the LOCAL validate call does not fail with the NotFound
condition — the internal `NotFoundException` is wrapped by the
catch-all into `ToolExecutionException`, so the surfaced error is the
generic execution failure. -/
theorem c1_counterexample :
    get_tool_class_by_name empty_dispatch_env.classes "X" = none
    ∧ isNotFoundResult (validate_tool_impl empty_dispatch_env
        { name := "X", source := SOURCE_LOCAL, usage := none,
          inputs := none, params := none } none).2 = false
    ∧ (validate_tool_impl empty_dispatch_env
        { name := "X", source := SOURCE_LOCAL, usage := none,
          inputs := none, params := none } none).2
      = .error (.execution ("Local tool " ++ "X" ++ " validation failed: "
          ++ ("Tool class not found for " ++ "X"))) :=
  ⟨rfl, rfl, rfl⟩

/-- C1 (amended): if no class in the native registry has name `X`, the
LOCAL validate call fails with the ExecutionFailed condition whose
message wraps the class-not-found text — independently of the request's
`params` and `inputs` — and a LOCAL validate call never surfaces the
NotFound condition at all. -/
theorem c1_amended_local_notfound_wrapped (env : DispatchEnv) (name : String)
    (usage : Option String) (inputs params : Option (List (String × PyObj)))
    (tenant : Option String) :
    (get_tool_class_by_name env.classes name = none →
      (validate_tool_impl env
          { name := name, source := SOURCE_LOCAL, usage := usage,
            inputs := inputs, params := params } tenant).2
        = .error (.execution ("Local tool " ++ name ++ " validation failed: "
            ++ ("Tool class not found for " ++ name))))
    ∧ isNotFoundResult (validate_tool_impl env
        { name := name, source := SOURCE_LOCAL, usage := usage,
          inputs := inputs, params := params } tenant).2 = false := by
  constructor
  · intro habs
    simp [validate_tool_impl, validate_tool_impl_body, SOURCE_LOCAL, SOURCE_MCP,
      validate_local_tool, validate_local_tool_body, habs, ToolError.message,
      Except.map]
  · rcases validate_local_tool_shape env.run env.classes name inputs params with
      ⟨v, hv⟩ | ⟨m, hm⟩
    · simp [validate_tool_impl, validate_tool_impl_body, SOURCE_LOCAL, SOURCE_MCP,
        hv, isNotFoundResult, Except.map]
    · simp [validate_tool_impl, validate_tool_impl_body, SOURCE_LOCAL, SOURCE_MCP,
        hm, isNotFoundResult, Except.map, ToolError.message]

/-- C1 witness: the amended statement at the empty registry with
`name = "X"`. -/
theorem c1_witness :
    (validate_tool_impl empty_dispatch_env
        { name := "X", source := SOURCE_LOCAL, usage := none,
          inputs := none, params := none } none).2
      = .error (.execution ("Local tool " ++ "X" ++ " validation failed: "
          ++ ("Tool class not found for " ++ "X"))) :=
  (c1_amended_local_notfound_wrapped empty_dispatch_env "X" none none none none).1 rfl

/-- C4 (counterexample): a validate request with an unknown source value
is collapsed into the generic execution-failure condition
(`ToolExecutionException("Unsupported tool source: ...")`) — the very
same condition an ordinary LOCAL execution failure surfaces as — rather
than surfacing as a distinct Unsupported-source error. -/
theorem c4_counterexample :
    (validate_tool_impl empty_dispatch_env
        { name := "t", source := "invalid_source", usage := none,
          inputs := none, params := none } none).2
      = .error (.execution ("Unsupported tool source: " ++ "invalid_source"))
    ∧ (validate_tool_impl empty_dispatch_env
        { name := "t", source := SOURCE_LOCAL, usage := none,
          inputs := none, params := none } none).2
      = .error (.execution ("Local tool " ++ "t" ++ " validation failed: "
          ++ ("Tool class not found for " ++ "t"))) :=
  ⟨rfl, rfl⟩

/-- C4 (amended): any source value outside the three known values makes
`validate_tool_impl` fail with the generic ExecutionFailed condition
whose message names the unsupported source; no distinct
unsupported-source error type exists in the code, the plain `Exception`
being swallowed by the catch-all. -/
theorem c4_amended_unsupported_source_collapsed (env : DispatchEnv)
    (request : ToolValidateRequest) (tenant : Option String)
    (h1 : request.source ≠ SOURCE_MCP) (h2 : request.source ≠ SOURCE_LOCAL)
    (h3 : request.source ≠ SOURCE_LANGCHAIN) :
    validate_tool_impl env request tenant
      = ([], .error (.execution ("Unsupported tool source: " ++ request.source))) := by
  simp [validate_tool_impl, validate_tool_impl_body, h1, h2, h3, ToolError.message]

/-- C4 witness: the amended statement at the concrete source
`"invalid_source"`. -/
theorem c4_witness :
    validate_tool_impl empty_dispatch_env
        { name := "t", source := "invalid_source", usage := none,
          inputs := none, params := none } none
      = ([], .error (.execution ("Unsupported tool source: " ++ "invalid_source"))) :=
  c4_amended_unsupported_source_collapsed empty_dispatch_env
    { name := "t", source := "invalid_source", usage := none,
      inputs := none, params := none } none
    (by decide) (by decide) (by decide)

/-- Whether a fetch/scan result succeeded. -/
def exceptOk {α : Type} : Except ToolError α → Bool
  | .ok _ => true
  | .error _ => false

/-- A registered server whose failing fetch is dropped from the scan
without affecting the other servers. -/
theorem collect_skips_failing_server (env : RemoteEnv) (pre post : List McpRecord)
    (r : McpRecord) (e : ToolError)
    (h : get_tool_from_remote_mcp_server env r.mcp_name r.mcp_server = .error e) :
    collect_registered_tools env (pre ++ r :: post)
      = collect_registered_tools env (pre ++ post) := by
  induction pre with
  | nil =>
    simp only [List.nil_append, collect_registered_tools, h]
    cases hs : r.status <;> simp
  | cons q rest ih =>
    simp only [List.cons_append, collect_registered_tools]
    rw [show rest.append (r :: post) = rest ++ r :: post from rfl,
      show rest.append post = rest ++ post from rfl, ih]

/-- C3 (counterexample): a world where the single registered server
returns tools but the implicit default server fails — the registered
fetch succeeds, yet the whole scan raises, contradicting "if at least
one registered server returns tools the scan completes successfully". -/
theorem c3_counterexample :
    exceptOk (get_tool_from_remote_mcp_server
        (fun url => if url = "http://u1" then
          .tools [{ name := "t1", description := "d",
                    inputSchema := [("properties", .pydict [])] }]
          else .failure) "s1" "http://u1") = true
    ∧ exceptOk (get_all_mcp_tools
        (fun url => if url = "http://u1" then
          .tools [{ name := "t1", description := "d",
                    inputSchema := [("properties", .pydict [])] }]
          else .failure)
        [{ mcp_name := "s1", mcp_server := "http://u1", status := true }]) = false :=
  ⟨rfl, rfl⟩

/-- C3 (amended): per-registered-server failures are swallowed (a
failing server is simply skipped, the others still contribute), and the
scan raises the MCP-connection error exactly when the unguarded fetch of
the implicit default server fails — regardless of how the registered
servers fared. -/
theorem c3_amended_default_server_decides (env : RemoteEnv) (records : List McpRecord) :
    (∀ e, get_all_mcp_tools env records = .error e
        ↔ get_tool_from_remote_mcp_server env "nexent" default_mcp_url = .error e)
    ∧ (∀ ts, get_tool_from_remote_mcp_server env "nexent" default_mcp_url = .ok ts →
        get_all_mcp_tools env records = .ok (collect_registered_tools env records ++ ts))
    ∧ (∀ pre post (r : McpRecord) e,
        get_tool_from_remote_mcp_server env r.mcp_name r.mcp_server = .error e →
        collect_registered_tools env (pre ++ r :: post)
          = collect_registered_tools env (pre ++ post)) := by
  refine ⟨?_, ?_, fun pre post r e h => collect_skips_failing_server env pre post r e h⟩
  · intro e
    cases hdef : get_tool_from_remote_mcp_server env "nexent" default_mcp_url with
    | ok ts => simp [get_all_mcp_tools, hdef]
    | error e2 => simp [get_all_mcp_tools, hdef]
  · intro ts hdef
    simp [get_all_mcp_tools, hdef]

/-- C3 witness: the amended statement decides the counterexample world —
the default server fails there, so the scan fails with that error. -/
theorem c3_witness :
    get_all_mcp_tools
        (fun url => if url = "http://u1" then
          .tools [{ name := "t1", description := "d",
                    inputSchema := [("properties", .pydict [])] }]
          else .failure)
        [{ mcp_name := "s1", mcp_server := "http://u1", status := true }]
      = .error (.mcpConnection "failed to get tool from remote MCP server") :=
  ((c3_amended_default_server_decides
      (fun url => if url = "http://u1" then
        .tools [{ name := "t1", description := "d",
                  inputSchema := [("properties", .pydict [])] }]
        else .failure)
      [{ mcp_name := "s1", mcp_server := "http://u1", status := true }]).1
    (.mcpConnection "failed to get tool from remote MCP server")).mpr (by rfl)

/-- Folding the tenant loop from any accumulator just adds the loop's
own summary onto it. -/
theorem scan_loop_acc (outcome : String → TenantScanOutcome) (l : List String)
    (acc : StartupSummary) :
    l.foldl (tenant_step outcome) acc
      = { total_tools := acc.total_tools + (scan_tenants_loop outcome l).total_tools,
          successful_tenants :=
            acc.successful_tenants + (scan_tenants_loop outcome l).successful_tenants,
          failed_tenants :=
            acc.failed_tenants ++ (scan_tenants_loop outcome l).failed_tenants } := by
  induction l generalizing acc with
  | nil => simp [scan_tenants_loop]
  | cons t rest ih =>
    simp only [List.foldl, scan_tenants_loop] at *
    rw [ih (tenant_step outcome acc t), ih (tenant_step outcome ⟨0, 0, []⟩ t)]
    cases houtcome : outcome t <;>
      simp [tenant_step, houtcome, StartupSummary.mk.injEq] <;>
      constructor <;> omega

/-- C9: a tenant whose scan times out (or raises) is recorded in the
failure list with its marker, and the tenants after it are still
processed — the final summary carries the other tenants' total tool
count and success count unchanged, with the failed tenant's marker
spliced into the failure list. -/
theorem c9_failed_tenant_recorded_and_skipped (outcome : String → TenantScanOutcome)
    (pre post : List String) (t m : String)
    (h : outcome t = .timeout ∨ outcome t = .failure m) :
    (scan_tenants_loop outcome (pre ++ t :: post)).total_tools
        = (scan_tenants_loop outcome pre).total_tools
          + (scan_tenants_loop outcome post).total_tools
    ∧ (scan_tenants_loop outcome (pre ++ t :: post)).successful_tenants
        = (scan_tenants_loop outcome pre).successful_tenants
          + (scan_tenants_loop outcome post).successful_tenants
    ∧ (scan_tenants_loop outcome (pre ++ t :: post)).failed_tenants
        = (scan_tenants_loop outcome pre).failed_tenants
          ++ (match outcome t with
              | .timeout => [t ++ " (timeout)"]
              | .failure m2 => [t ++ " (error: " ++ m2 ++ ")"]
              | .success _ => [])
          ++ (scan_tenants_loop outcome post).failed_tenants := by
  have hdec : scan_tenants_loop outcome (pre ++ t :: post)
      = (t :: post).foldl (tenant_step outcome) (scan_tenants_loop outcome pre) := by
    simp [scan_tenants_loop, List.foldl_append]
  rw [hdec]
  simp only [List.foldl]
  rw [scan_loop_acc outcome post (tenant_step outcome (scan_tenants_loop outcome pre) t)]
  rcases h with h | h <;>
    simp [tenant_step, h, List.append_assoc]

/-- The world of the spec's timeout scenario: tenant `T1` hangs past the
per-tenant timeout, tenant `T2` scans 3 tools. -/
def c9_example_outcome : String → TenantScanOutcome :=
  fun t => if t = "T1" then .timeout else .success 3

/-- C9 witness: `scan_all_tenants` over `[T1, T2]` where `T1` times out
still processes `T2`, reports `T1 (timeout)` and counts `T2`'s tools. -/
theorem c9_witness :
    (scan_tenants_loop c9_example_outcome ([] ++ "T1" :: ["T2"])).total_tools
        = (scan_tenants_loop c9_example_outcome []).total_tools
          + (scan_tenants_loop c9_example_outcome ["T2"]).total_tools
    ∧ (scan_tenants_loop c9_example_outcome ([] ++ "T1" :: ["T2"])).successful_tenants
        = (scan_tenants_loop c9_example_outcome []).successful_tenants
          + (scan_tenants_loop c9_example_outcome ["T2"]).successful_tenants
    ∧ (scan_tenants_loop c9_example_outcome ([] ++ "T1" :: ["T2"])).failed_tenants
        = (scan_tenants_loop c9_example_outcome []).failed_tenants
          ++ (match c9_example_outcome "T1" with
              | .timeout => ["T1" ++ " (timeout)"]
              | .failure m2 => ["T1" ++ " (error: " ++ m2 ++ ")"]
              | .success _ => [])
          ++ (scan_tenants_loop c9_example_outcome ["T2"]).failed_tenants :=
  c9_failed_tenant_recorded_and_skipped c9_example_outcome [] ["T2"] "T1" ""
    (.inl (by rfl))

/-- The spec's example tool: one property with neither `description` nor
`type`. -/
def c2_example_tool : RemoteTool :=
  { name := "t1"
    description := "d"
    inputSchema := [("properties", .pydict [("param1", .pydict [])])] }

/-- C2 (counterexample): the Remote Adapter renders `inputs` with
Python's `str()`, so the descriptor for a tool with one (backfilled)
property carries a single-quoted dict repr — processing succeeds, and
its `inputs` does not parse as JSON. -/
theorem c2_counterexample :
    (process_remote_tool "srv" c2_example_tool).map (fun ti => jsonParse ti.inputs)
      = some none :=
  rfl

/-- A remote tool whose flattened schema has an empty `properties`
dict. -/
def c2_empty_tool : RemoteTool :=
  { name := "t2", description := "d", inputSchema := [("properties", .pydict [])] }

/-- The descriptor the Remote Adapter builds for it. -/
def c2_empty_descriptor : ToolInfo :=
  { name := "t2", description := "d", params := [], source := SOURCE_MCP,
    inputs := py_str (.pydict []), output_type := "string", class_name := "t2",
    usage := some "srv", origin_name := some "t2", category := none }

/-- C2 (amended): the Native and Plugin adapters' `inputs` always parses
as valid JSON (it is `json.dumps` output, recovered exactly by the
parser); the Remote adapter's `inputs` is the Python `str()` of the
backfilled properties dict, which parses as valid JSON when the
properties are empty — but not in general. -/
theorem c2_amended_inputs_json_validity :
    (∀ cls : ToolClass, jsonParse (local_tool_info cls).inputs = some cls.inputs)
    ∧ (∀ t : LangchainTool,
        jsonParse (build_tool_info_from_langchain t).inputs
          = some (.pydict ((backfill_langchain_args t.args).map
              fun kv => (kv.1, PyObj.pydict kv.2))))
    ∧ (∀ server (t : RemoteTool) (ti : ToolInfo),
        process_remote_tool server t = some ti →
        lookupKey (flatten_input_schema t.inputSchema) "properties"
          = some (.pydict []) →
        jsonParse ti.inputs = some (.pydict [])) := by
  refine ⟨?_, ?_, ?_⟩
  · intro cls
    have h : (local_tool_info cls).inputs = json_dumps cls.inputs := rfl
    rw [h, jsonParse_json_dumps]
  · intro t
    have h : (build_tool_info_from_langchain t).inputs
        = json_dumps (.pydict ((backfill_langchain_args t.args).map
            fun kv => (kv.1, PyObj.pydict kv.2))) := rfl
    rw [h, jsonParse_json_dumps]
  · intro server t ti hpr hp
    have hti : ti.inputs = py_str (.pydict []) := by
      simp only [process_remote_tool, hp] at hpr
      simp only [backfillProps] at hpr
      cases hpr
      rfl
    rw [hti]
    rfl

/-- C2 witness: the amended statement at a concrete native class and at
the concrete empty-properties remote tool. -/
theorem c2_witness :
    jsonParse (local_tool_info
        { name := "create_file", description := "d",
          inputs := .pydict [("file_path", .pydict [("type", .pystr "string")])],
          output_type := "string", category := some "file",
          class_name := "CreateFileTool", ctor_params := [] }).inputs
      = some (.pydict [("file_path", .pydict [("type", .pystr "string")])])
    ∧ jsonParse c2_empty_descriptor.inputs = some (.pydict []) :=
  ⟨c2_amended_inputs_json_validity.1
      { name := "create_file", description := "d",
        inputs := .pydict [("file_path", .pydict [("type", .pystr "string")])],
        output_type := "string", category := some "file",
        class_name := "CreateFileTool", ctor_params := [] },
    c2_amended_inputs_json_validity.2.2 "srv" c2_empty_tool c2_empty_descriptor
      (by rfl) (by rfl)⟩
